import Mathlib

/-!
Verification of the prolink-rs wire codec and task logic.

This file gives a shallow embedding, in Lean 4, of the parts of the
prolink-rs repository that the checked claims are about:

* the broadcast-packet codec of `prolink/src/proto.rs` (nom-style parsers
  and `byteorder`-style writers over byte lists);
* the PDB string decoder `Database::parse_string` of
  `prolink/src/database.rs`;
* the track-change logic of `prolink/src/tasks/status.rs`;
* the peer-timeout logic of `prolink/src/tasks/membership.rs`;
* the metadata request handler of `prolink/src/tasks/metadata.rs`;
* the XDR linked-list decoders of `prolink-nfs/src/mount.rs` and
  `prolink-nfs/src/nfs.rs`.

Bytes are modelled as `Nat` values (the embedding tracks `< 256` bounds
explicitly where they matter); byte strings are `List Nat`.  Rust `String`
values are modelled by the list of bytes of their UTF-8 encoding.  Fallible
Rust code returns `Option`/`Except`; a Rust panic (out-of-bounds index,
`unwrap` of `None`) is a distinguished `RustOutcome.panics` result.
-/

namespace Prolink

/-- Outcome of running a piece of Rust code that may panic: either the code
panics (index out of bounds, unwrap of `None`, ...) or it returns a value. -/
inductive RustOutcome (α : Type) where
  | panics : RustOutcome α
  | returns (a : α) : RustOutcome α
  deriving DecidableEq, Repr

/-! ## Byte-level primitives

The nom combinators used by `proto.rs` (`tag`, `take`, `be_u8`, `be_u16`,
`be_u24`, `be_u32`) are embedded as functions from an input byte list to
`Option (value × remaining input)`; `none` is a nom parse error. -/

/-- Embedding of nom `tag`: the literal byte string `t` must be a prefix of
the input; the rest of the input is returned. -/
def pTag : List Nat → List Nat → Option (List Nat)
  | [], i => some i
  | _ :: _, [] => none
  | tb :: ts, b :: bs => if b = tb then pTag ts bs else none

/-- Embedding of nom `be_u8`: consume one byte. -/
def pU8 : List Nat → Option (Nat × List Nat)
  | [] => none
  | b :: bs => some (b, bs)

/-- Embedding of nom `be_u16`: two bytes, big endian. -/
def pU16 : List Nat → Option (Nat × List Nat)
  | b1 :: b0 :: bs => some (b1 * 256 + b0, bs)
  | _ => none

/-- Embedding of nom `be_u24`: three bytes, big endian. -/
def pU24 : List Nat → Option (Nat × List Nat)
  | b2 :: b1 :: b0 :: bs => some ((b2 * 256 + b1) * 256 + b0, bs)
  | _ => none

/-- Embedding of nom `be_u32`: four bytes, big endian. -/
def pU32 : List Nat → Option (Nat × List Nat)
  | b3 :: b2 :: b1 :: b0 :: bs => some (((b3 * 256 + b2) * 256 + b1) * 256 + b0, bs)
  | _ => none

/-- Embedding of nom `take n`: consume exactly `n` bytes. -/
def pTake : Nat → List Nat → Option (List Nat × List Nat)
  | 0, i => some ([], i)
  | _ + 1, [] => none
  | n + 1, b :: bs =>
    match pTake n bs with
    | some (x, r) => some (b :: x, r)
    | none => none

/-- Embedding of `byteorder` `write_u8`: a `u8` value is one byte (the
`% 256` records the machine width). -/
def w8 (n : Nat) : List Nat := [n % 256]

/-- Embedding of `byteorder` `write_u16::<BigEndian>`. -/
def w16be (n : Nat) : List Nat := [n / 256 % 256, n % 256]

/-! Inversion and computation lemmas for the primitives. -/

theorem pTag_eq_some {t i r : List Nat} : pTag t i = some r ↔ i = t ++ r := by
  induction t generalizing i with
  | nil => simp [pTag]
  | cons tb ts ih =>
    cases i with
    | nil => simp [pTag]
    | cons b bs =>
      by_cases hb : b = tb
      · subst hb
        simp [pTag, ih]
      · simp [pTag, hb, Ne.symm hb]

theorem pTag_self_append (t r : List Nat) : pTag t (t ++ r) = some r :=
  pTag_eq_some.mpr rfl

theorem pU8_eq_some {i : List Nat} {p : Nat × List Nat} :
    pU8 i = some p ↔ i = p.1 :: p.2 := by
  obtain ⟨v, r⟩ := p
  cases i <;> simp [pU8]

theorem pU16_eq_some {i : List Nat} {p : Nat × List Nat} :
    pU16 i = some p ↔ ∃ b1 b0, i = b1 :: b0 :: p.2 ∧ p.1 = b1 * 256 + b0 := by
  obtain ⟨v, r⟩ := p
  match i with
  | [] => simp [pU16]
  | [b] => simp [pU16]
  | b1 :: b0 :: bs =>
    simp only [pU16, Option.some_inj, Prod.mk.injEq, List.cons.injEq]
    constructor
    · rintro ⟨rfl, rfl⟩; exact ⟨b1, b0, ⟨rfl, rfl, rfl⟩, rfl⟩
    · rintro ⟨c1, c0, ⟨rfl, rfl, rfl⟩, rfl⟩; exact ⟨rfl, rfl⟩

theorem pTake_eq (n : Nat) (i : List Nat) :
    pTake n i = if n ≤ i.length then some (i.take n, i.drop n) else none := by
  induction n generalizing i with
  | zero => simp [pTake]
  | succ m ih =>
    cases i with
    | nil => simp [pTake]
    | cons b bs =>
      simp only [pTake, ih, List.length_cons]
      by_cases h : m ≤ bs.length
      · rw [if_pos h, if_pos (by omega)]
        simp
      · rw [if_neg h, if_neg (by omega)]

theorem pTake_eq_some {n : Nat} {i : List Nat} {p : List Nat × List Nat} :
    pTake n i = some p ↔ i = p.1 ++ p.2 ∧ p.1.length = n := by
  obtain ⟨x, r⟩ := p
  rw [pTake_eq]
  by_cases h : n ≤ i.length
  · rw [if_pos h]
    simp only [Option.some_inj, Prod.mk.injEq]
    constructor
    · rintro ⟨rfl, rfl⟩
      exact ⟨(List.take_append_drop n i).symm, List.length_take_of_le h⟩
    · rintro ⟨rfl, rfl⟩
      exact ⟨List.take_left x r, List.drop_left x r⟩
  · rw [if_neg h]
    constructor
    · intro hc; exact Option.noConfusion hc
    · rintro ⟨rfl, hx⟩
      rw [List.length_append] at h
      omega

theorem pTake_of_length {x : List Nat} {n : Nat} (h : x.length = n) (r : List Nat) :
    pTake n (x ++ r) = some (x, r) :=
  pTake_eq_some.mpr ⟨rfl, h⟩

/-! ## UTF-8 at the byte level

Rust `String` values are modelled by the byte list of their UTF-8
encoding.  `String::from_utf8_lossy` is modelled by `utf8Lossy`, which maps
a byte list to the UTF-8 encoding of the lossily decoded string: valid
sequences pass through unchanged and each maximal invalid subpart becomes
the three-byte encoding `ef bf bd` of U+FFFD, following the WHATWG
algorithm used by the Rust standard library. -/

/-- UTF-8 encoding of the replacement character U+FFFD. -/
def repBytes : List Nat := [0xef, 0xbf, 0xbd]

/-- Byte-level model of `String::from_utf8_lossy` (composed with UTF-8
re-encoding of the result). -/
def utf8Lossy : List Nat → List Nat
  | [] => []
  | b :: rest =>
    if b < 0x80 then b :: utf8Lossy rest
    else if 0xc2 ≤ b ∧ b ≤ 0xdf then
      match rest with
      | b2 :: r2 =>
        if 0x80 ≤ b2 ∧ b2 ≤ 0xbf then b :: b2 :: utf8Lossy r2
        else repBytes ++ utf8Lossy (b2 :: r2)
      | [] => repBytes
    else if 0xe0 ≤ b ∧ b ≤ 0xef then
      match rest with
      | b2 :: r2 =>
        if (if b = 0xe0 then 0xa0 else 0x80) ≤ b2 ∧
            b2 ≤ (if b = 0xed then 0x9f else 0xbf) then
          match r2 with
          | b3 :: r3 =>
            if 0x80 ≤ b3 ∧ b3 ≤ 0xbf then b :: b2 :: b3 :: utf8Lossy r3
            else repBytes ++ utf8Lossy (b3 :: r3)
          | [] => repBytes
        else repBytes ++ utf8Lossy (b2 :: r2)
      | [] => repBytes
    else if 0xf0 ≤ b ∧ b ≤ 0xf4 then
      match rest with
      | b2 :: r2 =>
        if (if b = 0xf0 then 0x90 else 0x80) ≤ b2 ∧
            b2 ≤ (if b = 0xf4 then 0x8f else 0xbf) then
          match r2 with
          | b3 :: r3 =>
            if 0x80 ≤ b3 ∧ b3 ≤ 0xbf then
              match r3 with
              | b4 :: r4 =>
                if 0x80 ≤ b4 ∧ b4 ≤ 0xbf then b :: b2 :: b3 :: b4 :: utf8Lossy r4
                else repBytes ++ utf8Lossy (b4 :: r4)
              | [] => repBytes
            else repBytes ++ utf8Lossy (b3 :: r3)
          | [] => repBytes
        else repBytes ++ utf8Lossy (b2 :: r2)
      | [] => repBytes
    else repBytes ++ utf8Lossy rest

/-- Validity of a byte list as UTF-8 (the invariant of a Rust `String`),
mirroring the case structure of `utf8Lossy`. -/
def utf8ValidB : List Nat → Bool
  | [] => true
  | b :: rest =>
    if b < 0x80 then utf8ValidB rest
    else if 0xc2 ≤ b ∧ b ≤ 0xdf then
      match rest with
      | b2 :: r2 => decide (0x80 ≤ b2 ∧ b2 ≤ 0xbf) && utf8ValidB r2
      | [] => false
    else if 0xe0 ≤ b ∧ b ≤ 0xef then
      match rest with
      | b2 :: r2 =>
        (decide ((if b = 0xe0 then 0xa0 else 0x80) ≤ b2 ∧
            b2 ≤ (if b = 0xed then 0x9f else 0xbf))) &&
        (match r2 with
         | b3 :: r3 => decide (0x80 ≤ b3 ∧ b3 ≤ 0xbf) && utf8ValidB r3
         | [] => false)
      | [] => false
    else if 0xf0 ≤ b ∧ b ≤ 0xf4 then
      match rest with
      | b2 :: r2 =>
        (decide ((if b = 0xf0 then 0x90 else 0x80) ≤ b2 ∧
            b2 ≤ (if b = 0xf4 then 0x8f else 0xbf))) &&
        (match r2 with
         | b3 :: r3 =>
           decide (0x80 ≤ b3 ∧ b3 ≤ 0xbf) &&
           (match r3 with
            | b4 :: r4 => decide (0x80 ≤ b4 ∧ b4 ≤ 0xbf) && utf8ValidB r4
            | [] => false)
         | [] => false)
      | [] => false
    else false

theorem utf8Lossy_of_valid_bounded : ∀ (n : Nat) (l : List Nat), l.length ≤ n →
    utf8ValidB l = true → utf8Lossy l = l := by
  intro n
  induction n with
  | zero =>
    intro l hl _
    rw [List.length_eq_zero.mp (Nat.le_zero.mp hl)]
    rfl
  | succ m ih =>
    intro l hl hv
    match l with
    | [] => rfl
    | b :: rest =>
      rw [utf8ValidB.eq_def] at hv
      dsimp only at hv
      rw [utf8Lossy.eq_def]
      dsimp only
      simp only [List.length_cons, Nat.succ_le_succ_iff] at hl
      by_cases hb : b < 0x80
      · rw [if_pos hb] at hv ⊢
        rw [ih rest hl hv]
      · rw [if_neg hb] at hv ⊢
        by_cases h2 : 0xc2 ≤ b ∧ b ≤ 0xdf
        · rw [if_pos h2] at hv ⊢
          match rest, hl with
          | [], _ => cases hv
          | b2 :: r2, hl =>
            dsimp only at hv ⊢
            simp only [Bool.and_eq_true, decide_eq_true_eq] at hv
            rw [if_pos hv.1]
            rw [ih r2 (by simpa using Nat.le_of_succ_le (by simpa using hl)) hv.2]
        · rw [if_neg h2] at hv ⊢
          by_cases h3 : 0xe0 ≤ b ∧ b ≤ 0xef
          · rw [if_pos h3] at hv ⊢
            match rest, hl with
            | [], _ => cases hv
            | b2 :: r2, hl =>
              dsimp only at hv ⊢
              simp only [Bool.and_eq_true, decide_eq_true_eq] at hv
              rw [if_pos hv.1]
              match r2, hl with
              | [], _ => cases hv.2
              | b3 :: r3, hl =>
                dsimp only at hv ⊢
                simp only [Bool.and_eq_true, decide_eq_true_eq] at hv
                rw [if_pos hv.2.1]
                have hlen : r3.length ≤ m := by
                  simp only [List.length_cons] at hl
                  omega
                rw [ih r3 hlen hv.2.2]
          · rw [if_neg h3] at hv ⊢
            by_cases h4 : 0xf0 ≤ b ∧ b ≤ 0xf4
            · rw [if_pos h4] at hv ⊢
              match rest, hl with
              | [], _ => cases hv
              | b2 :: r2, hl =>
                dsimp only at hv ⊢
                simp only [Bool.and_eq_true, decide_eq_true_eq] at hv
                rw [if_pos hv.1]
                match r2, hl with
                | [], _ => cases hv.2
                | b3 :: r3, hl =>
                  dsimp only at hv ⊢
                  simp only [Bool.and_eq_true, decide_eq_true_eq] at hv
                  rw [if_pos hv.2.1]
                  match r3, hl with
                  | [], _ => cases hv.2.2
                  | b4 :: r4, hl =>
                    dsimp only at hv ⊢
                    simp only [Bool.and_eq_true, decide_eq_true_eq] at hv
                    rw [if_pos hv.2.2.1]
                    have hlen : r4.length ≤ m := by
                      simp only [List.length_cons] at hl
                      omega
                    rw [ih r4 hlen hv.2.2.2]
            · rw [if_neg h4] at hv
              cases hv

theorem utf8Lossy_of_valid {l : List Nat} (h : utf8ValidB l = true) :
    utf8Lossy l = l :=
  utf8Lossy_of_valid_bounded l.length l (Nat.le_refl _) h

theorem utf8ValidB_append_bounded : ∀ (n : Nat) (a b : List Nat), a.length ≤ n →
    utf8ValidB a = true → utf8ValidB b = true → utf8ValidB (a ++ b) = true := by
  intro n
  induction n with
  | zero =>
    intro a b ha _ hb
    rw [List.length_eq_zero.mp (Nat.le_zero.mp ha)]
    exact hb
  | succ m ih =>
    intro a b ha hva hvb
    match a with
    | [] => exact hvb
    | x :: rest =>
      rw [utf8ValidB.eq_def] at hva
      dsimp only at hva
      rw [List.cons_append, utf8ValidB.eq_def]
      dsimp only
      simp only [List.length_cons, Nat.succ_le_succ_iff] at ha
      by_cases hb1 : x < 0x80
      · rw [if_pos hb1] at hva ⊢
        exact ih rest b ha hva hvb
      · rw [if_neg hb1] at hva ⊢
        by_cases h2 : 0xc2 ≤ x ∧ x ≤ 0xdf
        · rw [if_pos h2] at hva ⊢
          match rest, ha with
          | [], _ => cases hva
          | b2 :: r2, ha =>
            rw [List.cons_append]
            dsimp only at hva ⊢
            simp only [Bool.and_eq_true, decide_eq_true_eq] at hva ⊢
            exact ⟨hva.1, ih r2 b (by simp at ha; omega) hva.2 hvb⟩
        · rw [if_neg h2] at hva ⊢
          by_cases h3 : 0xe0 ≤ x ∧ x ≤ 0xef
          · rw [if_pos h3] at hva ⊢
            match rest, ha with
            | [], _ => cases hva
            | b2 :: r2, ha =>
              rw [List.cons_append]
              dsimp only at hva ⊢
              simp only [Bool.and_eq_true, decide_eq_true_eq] at hva ⊢
              refine ⟨hva.1, ?_⟩
              match r2, ha with
              | [], _ => cases hva.2
              | b3 :: r3, ha =>
                rw [List.cons_append]
                dsimp only at hva ⊢
                simp only [Bool.and_eq_true, decide_eq_true_eq] at hva ⊢
                exact ⟨hva.2.1, ih r3 b (by simp at ha; omega) hva.2.2 hvb⟩
          · rw [if_neg h3] at hva ⊢
            by_cases h4 : 0xf0 ≤ x ∧ x ≤ 0xf4
            · rw [if_pos h4] at hva ⊢
              match rest, ha with
              | [], _ => cases hva
              | b2 :: r2, ha =>
                rw [List.cons_append]
                dsimp only at hva ⊢
                simp only [Bool.and_eq_true, decide_eq_true_eq] at hva ⊢
                refine ⟨hva.1, ?_⟩
                match r2, ha with
                | [], _ => cases hva.2
                | b3 :: r3, ha =>
                  rw [List.cons_append]
                  dsimp only at hva ⊢
                  simp only [Bool.and_eq_true, decide_eq_true_eq] at hva ⊢
                  refine ⟨hva.2.1, ?_⟩
                  match r3, ha with
                  | [], _ => cases hva.2.2
                  | b4 :: r4, ha =>
                    rw [List.cons_append]
                    dsimp only at hva ⊢
                    simp only [Bool.and_eq_true, decide_eq_true_eq] at hva ⊢
                    exact ⟨hva.2.2.1, ih r4 b (by simp at ha; omega) hva.2.2.2 hvb⟩
            · rw [if_neg h4] at hva
              cases hva

theorem utf8ValidB_append {a b : List Nat} (ha : utf8ValidB a = true)
    (hb : utf8ValidB b = true) : utf8ValidB (a ++ b) = true :=
  utf8ValidB_append_bounded a.length a b (Nat.le_refl _) ha hb

theorem utf8ValidB_ascii {l : List Nat} (h : ∀ x ∈ l, x < 0x80) :
    utf8ValidB l = true := by
  induction l with
  | nil => rfl
  | cons b rest ih =>
    rw [utf8ValidB.eq_def]
    dsimp only
    rw [if_pos (h b (by simp))]
    exact ih fun x hx => h x (by simp [hx])

theorem utf8ValidB_replicate_zero (k : Nat) :
    utf8ValidB (List.replicate k 0) = true :=
  utf8ValidB_ascii fun x hx => by
    rw [List.eq_of_mem_replicate hx]; omega

/-! ## Device names

The device-name field of every broadcast packet is 20 bytes.
`device_name` in `proto.rs` reads the raw 20 bytes, decodes them with
`String::from_utf8_lossy` and strips trailing NUL characters
(`trim_end_matches`).  `write_device_name` copies the name's UTF-8
bytes into a zeroed 20-byte buffer with `io::Write for &mut [u8]`, which
copies `min(20, len)` bytes and never reports an error. -/

/-- Byte-level model of `trim_end_matches('\0')`: drop trailing zero
bytes (a NUL character is the single byte `0x00` in UTF-8). -/
def trimEndZeros (l : List Nat) : List Nat :=
  (l.reverse.dropWhile (fun b => b == 0)).reverse

/-- Model of `device_name` in `proto.rs`, as a function of the raw
20-byte name field (the `take 20usize` is done by the caller). -/
def deviceName (raw : List Nat) : List Nat :=
  trimEndZeros (utf8Lossy raw)

/-- Model of `write_device_name` in `proto.rs`: `min(20, len)` bytes of
the name are copied into a 20-byte zero buffer and the whole buffer is
emitted; there is no error path. -/
def writeDeviceName (name : List Nat) : List Nat :=
  let n := min 20 name.length
  name.take n ++ List.replicate (20 - n) 0

theorem writeDeviceName_length (name : List Nat) :
    (writeDeviceName name).length = 20 := by
  simp only [writeDeviceName, List.length_append, List.length_take,
    List.length_replicate]
  omega

theorem writeDeviceName_of_le {name : List Nat} (h : name.length ≤ 20) :
    writeDeviceName name = name ++ List.replicate (20 - name.length) 0 := by
  simp only [writeDeviceName, Nat.min_eq_right h, List.take_length]

theorem writeDeviceName_of_ge {name : List Nat} (h : 20 ≤ name.length) :
    writeDeviceName name = name.take 20 := by
  simp only [writeDeviceName, Nat.min_eq_left h, Nat.sub_self,
    List.replicate_zero, List.append_nil]

theorem dropWhile_zero_replicate_append (k : Nat) (y : List Nat) :
    (List.replicate k 0 ++ y).dropWhile (fun b => b == 0) =
      y.dropWhile (fun b => b == 0) := by
  induction k with
  | zero => rfl
  | succ m ih => simp [List.replicate_succ, List.dropWhile, ih]

theorem trimEndZeros_append_replicate {l : List Nat} (k : Nat)
    (h : l.getLast? ≠ some 0) :
    trimEndZeros (l ++ List.replicate k 0) = l := by
  unfold trimEndZeros
  rw [List.reverse_append, List.reverse_replicate,
    dropWhile_zero_replicate_append]
  cases hrev : l.reverse with
  | nil => simp at hrev; simp [hrev, List.dropWhile]
  | cons x xs =>
    have hx : x ≠ 0 := by
      intro hx0
      apply h
      rw [← List.head?_reverse, hrev, hx0]
      rfl
    rw [List.dropWhile_cons_of_neg (by simpa using hx), ← hrev,
      List.reverse_reverse]

/-- Round trip of a device name through the 20-byte field: any valid
UTF-8 name of at most 20 bytes that does not end in a NUL byte survives
writing and re-parsing unchanged. -/
theorem deviceName_writeDeviceName {name : List Nat}
    (hval : utf8ValidB name = true) (hle : name.length ≤ 20)
    (hlast : name.getLast? ≠ some 0) :
    deviceName (writeDeviceName name) = name := by
  rw [writeDeviceName_of_le hle]
  unfold deviceName
  rw [utf8Lossy_of_valid (utf8ValidB_append hval (utf8ValidB_replicate_zero _))]
  exact trimEndZeros_append_replicate _ hlast

/-! ## Packet structures of `proto.rs`

Each Rust struct is mirrored field for field.  `String` fields hold the
UTF-8 bytes of the Rust string; `[u8; n]` fields are byte lists (their
length is tracked by hypotheses).  The `f32` fields `pitch` and `bpm` of
`BeatPacket` are pure functions of the raw 24/16-bit wire values
(`(raw - 0x100000) / 0x100000 * 100` and `raw / 100`); the embedding
stores those raw values. -/

/-- Byte string `51 73 70 74 31 57 6d 4a 4f 4c`, the `HEADER` constant. -/
def HEADERc : List Nat := [0x51, 0x73, 0x70, 0x74, 0x31, 0x57, 0x6d, 0x4a, 0x4f, 0x4c]

structure PacketHeader where
  name : List Nat
  proto_ver : Nat
  deriving DecidableEq, Repr

structure AnnouncePacket where
  name : List Nat
  proto_ver : Nat
  deriving DecidableEq, Repr

structure DeviceNumClaim1Packet where
  name : List Nat
  proto_ver : Nat
  pkt_num : Nat
  mac_addr : List Nat
  deriving DecidableEq, Repr

structure DeviceNumClaim2Packet where
  name : List Nat
  proto_ver : Nat
  ip_addr : List Nat
  mac_addr : List Nat
  device_num : Nat
  pkt_num : Nat
  auto_assign : Bool
  deriving DecidableEq, Repr

structure DeviceNumClaim3Packet where
  name : List Nat
  proto_ver : Nat
  device_num : Nat
  pkt_num : Nat
  deriving DecidableEq, Repr

structure KeepAlivePacket where
  name : List Nat
  proto_ver : Nat
  device_num : Nat
  device_type : Nat
  mac_addr : List Nat
  ip_addr : List Nat
  peers_seen : Nat
  unknown_35 : Nat
  deriving DecidableEq, Repr

structure PlayerStatusExtraData0 where
  unknown_d4 : List Nat
  unknown_f4 : List Nat
  waveform_color : Nat
  unknown_fb : Nat
  waveform_pos : Nat
  unknown_fe : List Nat
  buf_f : Nat
  buf_b : Nat
  buf_s : Nat
  unknown_120 : List Nat
  master_tempo : Nat
  unknown_159 : List Nat
  key : Nat
  unknown_15f : List Nat
  key_shift : List Nat
  unknown_16c : List Nat
  deriving DecidableEq, Repr

structure PlayerStatusPacket where
  name : List Nat
  unknown_10 : Nat
  device_num : Nat
  unknown_16 : Nat
  active : Nat
  track_device : Nat
  track_slot : Nat
  track_type : Nat
  rekordbox_id : Nat
  track_num : Nat
  d_l : Nat
  unknown_38 : List Nat
  d_n : Nat
  unknown_48 : List Nat
  usb_activity : Nat
  sd_activity : Nat
  u_l : Nat
  s_l : Nat
  link_available : Nat
  unknown_78 : Nat
  play_mode : Nat
  firmware_ver : List Nat
  sync_n : Nat
  flags : Nat
  unknown_8b : Nat
  play_state : Nat
  pitch_1 : Nat
  m_v : Nat
  bpm : Nat
  unknown_94 : Nat
  pitch_2 : Nat
  p_3 : Nat
  m_m : Nat
  m_h : Nat
  beat : Nat
  cue : Nat
  bar_beat : Nat
  media_presence : Nat
  u_e : Nat
  s_e : Nat
  emergency_loop_active : Nat
  pitch_3 : Nat
  pitch_4 : Nat
  seq_num : Nat
  player_type : Nat
  unknown_cd : List Nat
  extra0 : Option PlayerStatusExtraData0
  deriving DecidableEq, Repr

structure BeatPacket where
  name : List Nat
  device_num : Nat
  next_beat : Nat
  second_beat : Nat
  next_bar : Nat
  fourth_beat : Nat
  second_bar : Nat
  eighth_beat : Nat
  pitch_raw : Nat
  bpm_raw : Nat
  beat : Nat
  deriving DecidableEq, Repr

inductive Packet where
  | announce (p : AnnouncePacket)
  | deviceNumClaim1 (p : DeviceNumClaim1Packet)
  | deviceNumClaim2 (p : DeviceNumClaim2Packet)
  | deviceNumClaim3 (p : DeviceNumClaim3Packet)
  | keepAlive (p : KeepAlivePacket)
  | playerStatus (p : PlayerStatusPacket)
  | beat (p : BeatPacket)
  deriving DecidableEq, Repr

/-! ## Parsers and writers of `proto.rs` -/

/-- Embedding of the `header` nom function. -/
def headerP (i : List Nat) : Option (List Nat) := pTag HEADERc i

/-- Embedding of the `device_name` nom function (raw 20-byte field, then
`from_utf8_lossy` and `trim_end_matches('\0')`). -/
def deviceNameP (i : List Nat) : Option (List Nat × List Nat) :=
  match pTake 20 i with
  | none => none
  | some (raw, i) => some (deviceName raw, i)

/-- Embedding of `negotiation_header`: magic, `[pkt_type, 0x00]`, device
name, `0x01`, protocol version, big-endian length (read and dropped). -/
def negotiationHeader (pktType : Nat) (i : List Nat) :
    Option (PacketHeader × List Nat) :=
  match headerP i with
  | none => none
  | some i =>
  match pTag [pktType, 0x00] i with
  | none => none
  | some i =>
  match deviceNameP i with
  | none => none
  | some (name, i) =>
  match pTag [0x01] i with
  | none => none
  | some i =>
  match pU8 i with
  | none => none
  | some (protoVer, i) =>
  match pU16 i with
  | none => none
  | some (_len, i) => some ({ name := name, proto_ver := protoVer }, i)

/-- Embedding of `write_header`. -/
def writeHeader (pktType : Nat) (name : List Nat) (protoVer : Nat)
    (pktLen : Nat) : List Nat :=
  HEADERc ++ w8 pktType ++ w8 0x00 ++ writeDeviceName name ++
    w8 0x01 ++ w8 protoVer ++ w16be pktLen

def AnnouncePacket.write (p : AnnouncePacket) : List Nat :=
  let len := if p.proto_ver = 3 then 0x26 else 0x25
  writeHeader 0x0a p.name p.proto_ver len ++ w8 0x01 ++
    (if p.proto_ver = 3 then w8 0x00 else [])

def AnnouncePacket.parse (i : List Nat) : Option (Packet × List Nat) :=
  match negotiationHeader 0x0a i with
  | none => none
  | some (hdr, i) =>
  match pTag [0x01] i with
  | none => none
  | some i =>
    some (Packet.announce { name := hdr.name, proto_ver := hdr.proto_ver }, i)

def DeviceNumClaim1Packet.write (p : DeviceNumClaim1Packet) : List Nat :=
  writeHeader 0x00 p.name p.proto_ver 0x2c ++
    w8 p.pkt_num ++ w8 0x01 ++ p.mac_addr

def DeviceNumClaim1Packet.parse (i : List Nat) : Option (Packet × List Nat) :=
  match negotiationHeader 0x00 i with
  | none => none
  | some (hdr, i) =>
  match pU8 i with
  | none => none
  | some (pktNum, i) =>
  match pTag [0x01] i with
  | none => none
  | some i =>
  match pTake 6 i with
  | none => none
  | some (macAddr, i) =>
    some (Packet.deviceNumClaim1
      { name := hdr.name, proto_ver := hdr.proto_ver,
        pkt_num := pktNum, mac_addr := macAddr }, i)

def DeviceNumClaim2Packet.write (p : DeviceNumClaim2Packet) : List Nat :=
  writeHeader 0x02 p.name p.proto_ver 0x32 ++
    p.ip_addr ++ p.mac_addr ++
    w8 p.device_num ++ w8 p.pkt_num ++ w8 0x01 ++
    w8 (if p.auto_assign then 0x01 else 0x02)

def DeviceNumClaim2Packet.parse (i : List Nat) : Option (Packet × List Nat) :=
  match negotiationHeader 0x02 i with
  | none => none
  | some (hdr, i) =>
  match pTake 4 i with
  | none => none
  | some (ipAddr, i) =>
  match pTake 6 i with
  | none => none
  | some (macAddr, i) =>
  match pU8 i with
  | none => none
  | some (deviceNum, i) =>
  match pU8 i with
  | none => none
  | some (pktNum, i) =>
  match pTag [0x01] i with
  | none => none
  | some i =>
  match pU8 i with
  | none => none
  | some (auto, i) =>
    some (Packet.deviceNumClaim2
      { name := hdr.name, proto_ver := hdr.proto_ver,
        ip_addr := ipAddr, mac_addr := macAddr, device_num := deviceNum,
        pkt_num := pktNum, auto_assign := auto = 0x01 }, i)

def DeviceNumClaim3Packet.write (p : DeviceNumClaim3Packet) : List Nat :=
  writeHeader 0x04 p.name p.proto_ver 0x26 ++
    w8 p.device_num ++ w8 p.pkt_num

def DeviceNumClaim3Packet.parse (i : List Nat) : Option (Packet × List Nat) :=
  match negotiationHeader 0x04 i with
  | none => none
  | some (hdr, i) =>
  match pU8 i with
  | none => none
  | some (deviceNum, i) =>
  match pU8 i with
  | none => none
  | some (pktNum, i) =>
    some (Packet.deviceNumClaim3
      { name := hdr.name, proto_ver := hdr.proto_ver,
        device_num := deviceNum, pkt_num := pktNum }, i)

def KeepAlivePacket.write (p : KeepAlivePacket) : List Nat :=
  writeHeader 0x06 p.name p.proto_ver 0x36 ++
    w8 p.device_num ++ w8 p.device_type ++ p.mac_addr ++ p.ip_addr ++
    (w8 p.peers_seen ++ [0x00, 0x00, 0x00, 0x01] ++ w8 p.unknown_35)

def KeepAlivePacket.parse (i : List Nat) : Option (Packet × List Nat) :=
  match negotiationHeader 0x06 i with
  | none => none
  | some (hdr, i) =>
  match pU8 i with
  | none => none
  | some (deviceNum, i) =>
  match pU8 i with
  | none => none
  | some (deviceType, i) =>
  match pTake 6 i with
  | none => none
  | some (macAddr, i) =>
  match pTake 4 i with
  | none => none
  | some (ipAddr, i) =>
  match pU8 i with
  | none => none
  | some (peersSeen, i) =>
  match pTag [0x00, 0x00, 0x00, 0x01] i with
  | none => none
  | some i =>
  match pU8 i with
  | none => none
  | some (unknown35, i) =>
    some (Packet.keepAlive
      { name := hdr.name, proto_ver := hdr.proto_ver,
        device_num := deviceNum, device_type := deviceType,
        mac_addr := macAddr, ip_addr := ipAddr, peers_seen := peersSeen,
        unknown_35 := unknown35 }, i)

/-- Embedding of the `player_type` branch inside `PlayerStatusPacket::parse`:
`0x05` parses no trailer, `0x1f` parses the full extended trailer, and any
other value parses no trailer (the source comment reads `TODO: 2000nx2?`). -/
def parseExtra0 (playerType : Nat) (i : List Nat) :
    Option (Option PlayerStatusExtraData0 × List Nat) :=
  if playerType = 0x05 then some (none, i)
  else if playerType = 0x1f then
    match pTag [0x12, 0x34, 0x56, 0x78] i with
    | none => none
    | some i =>
    match pTake 28 i with
    | none => none
    | some (d4, i) =>
    match pTag [0x12, 0x34, 0x56, 0x78] i with
    | none => none
    | some i =>
    match pTake 6 i with
    | none => none
    | some (f4, i) =>
    match pU8 i with
    | none => none
    | some (wc, i) =>
    match pU16 i with
    | none => none
    | some (ufb, i) =>
    match pU8 i with
    | none => none
    | some (wp, i) =>
    match pTake 31 i with
    | none => none
    | some (ufe, i) =>
    match pU8 i with
    | none => none
    | some (bf, i) =>
    match pU8 i with
    | none => none
    | some (bb, i) =>
    match pU8 i with
    | none => none
    | some (bs, i) =>
    match pTake 0x38 i with
    | none => none
    | some (u120, i) =>
    match pU8 i with
    | none => none
    | some (mt, i) =>
    match pTake 3 i with
    | none => none
    | some (u159, i) =>
    match pU24 i with
    | none => none
    | some (ky, i) =>
    match pTake 5 i with
    | none => none
    | some (u15f, i) =>
    match pTake 8 i with
    | none => none
    | some (ks, i) =>
    match pTake 0x288 i with
    | none => none
    | some (u16c, i) =>
      some (some
        { unknown_d4 := d4, unknown_f4 := f4, waveform_color := wc,
          unknown_fb := ufb, waveform_pos := wp, unknown_fe := ufe,
          buf_f := bf, buf_b := bb, buf_s := bs,
          unknown_120 := u120, master_tempo := mt,
          unknown_159 := u159, key := ky, unknown_15f := u15f,
          key_shift := ks, unknown_16c := u16c }, i)
  else some (none, i)

def PlayerStatusPacket.parse (i : List Nat) : Option (Packet × List Nat) :=
  match headerP i with
  | none => none
  | some i =>
  match pTag [0x0a] i with
  | none => none
  | some i =>
  match deviceNameP i with
  | none => none
  | some (name, i) =>
  match pTag [0x01] i with
  | none => none
  | some i =>
  match pU8 i with
  | none => none
  | some (u10, i) =>
  match pU8 i with
  | none => none
  | some (dn, i) =>
  match pU16 i with
  | none => none
  | some (_len, i) =>
  match pU8 i with
  | none => none
  | some (_dn2, i) =>
  match pTag [0x00] i with
  | none => none
  | some i =>
  match pU8 i with
  | none => none
  | some (u16f, i) =>
  match pU8 i with
  | none => none
  | some (act, i) =>
  match pU8 i with
  | none => none
  | some (td, i) =>
  match pU8 i with
  | none => none
  | some (ts, i) =>
  match pU8 i with
  | none => none
  | some (tt, i) =>
  match pTag [0x00] i with
  | none => none
  | some i =>
  match pU32 i with
  | none => none
  | some (rid, i) =>
  match pTag [0x00, 0x00] i with
  | none => none
  | some i =>
  match pU16 i with
  | none => none
  | some (tn, i) =>
  match pTag [0x00, 0x00, 0x00] i with
  | none => none
  | some i =>
  match pU8 i with
  | none => none
  | some (dl, i) =>
  match pTake 14 i with
  | none => none
  | some (u38, i) =>
  match pU16 i with
  | none => none
  | some (dnn, i) =>
  match pTake 32 i with
  | none => none
  | some (u48, i) =>
  match pTag [0x01, 0x00] i with
  | none => none
  | some i =>
  match pU8 i with
  | none => none
  | some (usb, i) =>
  match pU8 i with
  | none => none
  | some (sd, i) =>
  match pTag [0x00, 0x00, 0x00] i with
  | none => none
  | some i =>
  match pU8 i with
  | none => none
  | some (ul, i) =>
  match pTag [0x00, 0x00, 0x00] i with
  | none => none
  | some i =>
  match pU8 i with
  | none => none
  | some (sl, i) =>
  match pTag [0x00] i with
  | none => none
  | some i =>
  match pU8 i with
  | none => none
  | some (la, i) =>
  match pTag [0x00, 0x00] i with
  | none => none
  | some i =>
  match pU8 i with
  | none => none
  | some (u78, i) =>
  match pTag [0x00, 0x00] i with
  | none => none
  | some i =>
  match pU8 i with
  | none => none
  | some (pm, i) =>
  match pTake 4 i with
  | none => none
  | some (fw, i) =>
  match pTag [0x00, 0x00, 0x00, 0x00] i with
  | none => none
  | some i =>
  match pU32 i with
  | none => none
  | some (sn, i) =>
  match pTag [0x00] i with
  | none => none
  | some i =>
  match pU8 i with
  | none => none
  | some (fl, i) =>
  match pU8 i with
  | none => none
  | some (u8b, i) =>
  match pU8 i with
  | none => none
  | some (psv, i) =>
  match pU32 i with
  | none => none
  | some (p1, i) =>
  match pU16 i with
  | none => none
  | some (mv, i) =>
  match pU16 i with
  | none => none
  | some (bpmv, i) =>
  match pU32 i with
  | none => none
  | some (u94, i) =>
  match pU32 i with
  | none => none
  | some (p2, i) =>
  match pTag [0x00] i with
  | none => none
  | some i =>
  match pU8 i with
  | none => none
  | some (p3, i) =>
  match pU8 i with
  | none => none
  | some (mm, i) =>
  match pU8 i with
  | none => none
  | some (mh, i) =>
  match pU32 i with
  | none => none
  | some (bt, i) =>
  match pU16 i with
  | none => none
  | some (cu, i) =>
  match pU8 i with
  | none => none
  | some (bb, i) =>
  match pTag [0x00, 0x00, 0x00, 0x00, 0x00, 0x00, 0x00, 0x00, 0x00] i with
  | none => none
  | some i =>
  match pTag [0x00, 0x00, 0x00, 0x00, 0x00, 0x00, 0x01] i with
  | none => none
  | some i =>
  match pU8 i with
  | none => none
  | some (mpr, i) =>
  match pU8 i with
  | none => none
  | some (ue, i) =>
  match pU8 i with
  | none => none
  | some (se, i) =>
  match pU8 i with
  | none => none
  | some (el, i) =>
  match pTag [0x00, 0x00, 0x00, 0x00, 0x00] i with
  | none => none
  | some i =>
  match pU32 i with
  | none => none
  | some (pp3, i) =>
  match pU32 i with
  | none => none
  | some (pp4, i) =>
  match pU32 i with
  | none => none
  | some (sq, i) =>
  match pU8 i with
  | none => none
  | some (pt, i) =>
  match pTake 3 i with
  | none => none
  | some (ucd, i) =>
  match parseExtra0 pt i with
  | none => none
  | some (ex, i) =>
    some (Packet.playerStatus
      { name := name, unknown_10 := u10, device_num := dn,
        unknown_16 := u16f, active := act, track_device := td,
        track_slot := ts, track_type := tt, rekordbox_id := rid,
        track_num := tn, d_l := dl, unknown_38 := u38, d_n := dnn,
        unknown_48 := u48, usb_activity := usb, sd_activity := sd,
        u_l := ul, s_l := sl, link_available := la,
        unknown_78 := u78, play_mode := pm,
        firmware_ver := trimEndZeros (utf8Lossy fw), sync_n := sn,
        flags := fl, unknown_8b := u8b, play_state := psv,
        pitch_1 := p1, m_v := mv, bpm := bpmv, unknown_94 := u94,
        pitch_2 := p2, p_3 := p3, m_m := mm, m_h := mh,
        beat := bt, cue := cu, bar_beat := bb,
        media_presence := mpr, u_e := ue, s_e := se,
        emergency_loop_active := el, pitch_3 := pp3, pitch_4 := pp4,
        seq_num := sq, player_type := pt, unknown_cd := ucd,
        extra0 := ex }, i)

def BeatPacket.parse (i : List Nat) : Option (Packet × List Nat) :=
  match headerP i with
  | none => none
  | some i =>
  match pTag [0x28] i with
  | none => none
  | some i =>
  match deviceNameP i with
  | none => none
  | some (name, i) =>
  match pTag [0x01, 0x00] i with
  | none => none
  | some i =>
  match pU8 i with
  | none => none
  | some (dn, i) =>
  match pU16 i with
  | none => none
  | some (_len, i) =>
  match pU32 i with
  | none => none
  | some (nb, i) =>
  match pU32 i with
  | none => none
  | some (sb, i) =>
  match pU32 i with
  | none => none
  | some (nbar, i) =>
  match pU32 i with
  | none => none
  | some (fb, i) =>
  match pU32 i with
  | none => none
  | some (sbar, i) =>
  match pU32 i with
  | none => none
  | some (eb, i) =>
  match pTake 24 i with
  | none => none
  | some (_pad1, i) =>
  match pU32 i with
  | none => none
  | some (pr, i) =>
  match pTake 2 i with
  | none => none
  | some (_pad2, i) =>
  match pU16 i with
  | none => none
  | some (br, i) =>
  match pU8 i with
  | none => none
  | some (bv, i) =>
  match pTake 2 i with
  | none => none
  | some (_pad3, i) =>
  match pU8 i with
  | none => none
  | some (_rep, i) =>
    some (Packet.beat
      { name := name, device_num := dn, next_beat := nb,
        second_beat := sb, next_bar := nbar, fourth_beat := fb,
        second_bar := sbar, eighth_beat := eb, pitch_raw := pr,
        bpm_raw := br, beat := bv }, i)

/-- Model of `ProlinkError` as far as `Packet::parse` produces it.  The
real `ParseError` also carries a wall-clock timestamp and a hex dump and
is preceded by a write of the packet to `./bad-packets/` (I/O that the
embedding does not model). -/
inductive PacketError where
  | parseError : PacketError
  | extraData (len : Nat) : PacketError
  deriving DecidableEq, Repr

/-- Embedding of `Packet::parse_impl`.  The `AnnounceStatus` arm indexes
`data[0xb]` without a bounds check; an input that reaches that arm with
fewer than 12 bytes makes the Rust code panic, which the model records as
`RustOutcome.panics`. -/
def Packet.parseImpl (data : List Nat) :
    RustOutcome (Option (Packet × List Nat)) :=
  match (headerP data).bind pU8 with
  | none => .returns none
  | some (packetType, _) =>
    if packetType = 0x00 then .returns (DeviceNumClaim1Packet.parse data)
    else if packetType = 0x02 then .returns (DeviceNumClaim2Packet.parse data)
    else if packetType = 0x04 then .returns (DeviceNumClaim3Packet.parse data)
    else if packetType = 0x06 then .returns (KeepAlivePacket.parse data)
    else if packetType = 0x0a then
      match data[0xb]? with
      | none => .panics
      | some b =>
        if b = 0x00 then .returns (AnnouncePacket.parse data)
        else .returns (PlayerStatusPacket.parse data)
    else if packetType = 0x28 then .returns (BeatPacket.parse data)
    else .returns none

/-- Embedding of `Packet::parse`: a nom error becomes a structured
`ParseError`; a successful variant parse with a non-empty remainder
becomes the `packet has extra data` error. -/
def Packet.parse (data : List Nat) : RustOutcome (Except PacketError Packet) :=
  match Packet.parseImpl data with
  | .panics => .panics
  | .returns none => .returns (.error .parseError)
  | .returns (some (pkt, rest)) =>
    if rest.isEmpty then .returns (.ok pkt)
    else .returns (.error (.extraData rest.length))

/-! ## UTF-16 and UTF-8 transcoding

The PDB string decoder and the NFS list decoders turn little-endian byte
pairs into UTF-16 code units and decode them with `String::from_utf16`
(strict, `Err` on a lone surrogate) or `String::from_utf16_lossy` (lone
surrogates become U+FFFD).  The resulting Rust `String` is modelled, as
everywhere in this file, by the bytes of its UTF-8 encoding, so decoded
scalar values are re-encoded with `utf8EncodeChar`. -/

/-- Embedding of `chunks(2)` plus `(b[0] as u16) + ((b[1] as u16) << 8)`:
little-endian byte pairs to UTF-16 code units.  Every caller checks the
byte count is even before calling, so the odd tail case is unreachable in
the modelled code paths. -/
def leU16Chunks : List Nat → List Nat
  | b0 :: b1 :: rest => (b0 + b1 * 256) :: leU16Chunks rest
  | _ => []

/-- UTF-8 encoding of one unicode scalar value. -/
def utf8EncodeChar (c : Nat) : List Nat :=
  if c < 0x80 then [c]
  else if c < 0x800 then [0xc0 + c / 64, 0x80 + c % 64]
  else if c < 0x10000 then [0xe0 + c / 4096, 0x80 + c / 64 % 64, 0x80 + c % 64]
  else [0xf0 + c / 0x40000, 0x80 + c / 4096 % 64, 0x80 + c / 64 % 64,
    0x80 + c % 64]

/-- UTF-8 encoding of a list of unicode scalar values. -/
def utf8Encode (l : List Nat) : List Nat := (l.map utf8EncodeChar).flatten

/-- Embedding of `String::from_utf16`: `none` models the `Err` case (a
lone or out-of-order surrogate). -/
def utf16Decode : List Nat → Option (List Nat)
  | [] => some []
  | u :: rest =>
    if u < 0xd800 ∨ 0xe000 ≤ u then
      match utf16Decode rest with
      | none => none
      | some cs => some (u :: cs)
    else if u ≤ 0xdbff then
      match rest with
      | u2 :: r2 =>
        if 0xdc00 ≤ u2 ∧ u2 ≤ 0xdfff then
          match utf16Decode r2 with
          | none => none
          | some cs => some ((0x10000 + (u - 0xd800) * 0x400 + (u2 - 0xdc00)) :: cs)
        else none
      | [] => none
    else none

/-- Embedding of `String::from_utf16_lossy`: a lone surrogate becomes
U+FFFD and decoding continues. -/
def utf16LossyDecode : List Nat → List Nat
  | [] => []
  | u :: rest =>
    if u < 0xd800 ∨ 0xe000 ≤ u then u :: utf16LossyDecode rest
    else if u ≤ 0xdbff then
      match rest with
      | u2 :: r2 =>
        if 0xdc00 ≤ u2 ∧ u2 ≤ 0xdfff then
          (0x10000 + (u - 0xd800) * 0x400 + (u2 - 0xdc00)) :: utf16LossyDecode r2
        else 0xfffd :: utf16LossyDecode (u2 :: r2)
      | [] => [0xfffd]
    else 0xfffd :: utf16LossyDecode rest

/-! ## The PDB string decoder (`Database::parse_string`, database.rs)

`le_u16(data, off)` slices `data[off..off + 2]`, which panics when the
slice runs past the end; likewise the payload slices.  The embedding
returns `RustOutcome.panics` at exactly those points.  An `Err` result of
`parse_string` (invalid UTF-8/UTF-16 payload, odd UTF-16 length) is
modelled as `Except.error ()` (the anyhow message text is dropped). -/

/-- Little-endian u16 at a byte offset, used with the bounds already
checked (the caller of this helper models the panic case itself). -/
def leU16At (data : List Nat) (off : Nat) : Nat :=
  data.getD off 0 + data.getD (off + 1) 0 * 256

/-- Embedding of `Database::parse_string`. -/
def parseString (data : List Nat) : RustOutcome (Except Unit (List Nat)) :=
  match data with
  | [] => .panics
  | flags :: _ =>
    if flags = 0x90 ∧ 4 < data.length ∧ data.getD 4 0 = 0x3 then
      let len := leU16At data 1
      if len < 6 then .returns (.ok [])
      else if data.length < len - 1 then .panics
      else
        let strData := (data.drop 5).take (len - 1 - 5)
        if utf8ValidB strData then .returns (.ok strData)
        else .returns (.error ())
    else if flags % 2 = 0 then
      if data.length < 3 then .panics
      else
        let len := leU16At data 1
        if len < 5 then .returns (.ok [])
        else if len % 2 ≠ 0 then .returns (.error ())
        else if data.length < len then .panics
        else
          let units := leU16Chunks ((data.drop 4).take (len - 4))
          match utf16Decode units with
          | some cs => .returns (.ok (utf8Encode cs))
          | none => .returns (.error ())
    else
      let len := flags / 2
      if len < 2 then .returns (.ok [])
      else if data.length < len then .panics
      else
        let strData := (data.drop 1).take (len - 1)
        if utf8ValidB strData then .returns (.ok strData)
        else .returns (.error ())

/-! ## Messages and peers (`message.rs`, `lib.rs`)

`message::Peer` and `message::Track` are the public event payloads.  The
crate-level `Peer` owned by the membership task is not present in the
source snapshot (only its uses in `tasks/membership.rs` and the spec
describe it); its fields here follow those uses: name, device number, MAC,
IP, protocol version and a monotonic `last_seen` instant, modelled in
milliseconds. -/

structure TrackMetadata where
  sample_rate : Nat
  composer : List Nat
  file_size : Nat
  key : List Nat
  original_artist : List Nat
  label : List Nat
  remixer : List Nat
  bitrate : Nat
  track_number : Nat
  /-- The source field is an `f32` equal to the raw u32 tempo divided by
  100; the embedding keeps the raw value. -/
  tempo_raw : Nat
  genre : List Nat
  album_name : List Nat
  album_artist : List Nat
  artist : List Nat
  disc : Nat
  play_count : Nat
  year : Nat
  sample_depth : Nat
  duration : Nat
  color : List Nat
  rating : Nat
  isrc : List Nat
  date_added : List Nat
  release_date : List Nat
  mix_name : List Nat
  comment : List Nat
  title : List Nat
  deriving DecidableEq, Repr

/-- Model of `message::Track`, field for field (`derive(PartialEq)` on the
Rust side is structural equality over all seven fields). -/
structure Track where
  player_device : Nat
  track_device : Nat
  track_slot : Nat
  track_type : Nat
  rekordbox_id : Nat
  metadata : Option TrackMetadata
  artwork : Option (List Nat)
  deriving DecidableEq, Repr

/-- Model of `message::Peer`. -/
structure MsgPeer where
  name : List Nat
  device_num : Nat
  deriving DecidableEq, Repr

/-- Model of `message::Beat`; the `f32` pitch and bpm are pure functions
of the raw wire values kept here. -/
structure BeatEvent where
  device_num : Nat
  next_beat : Nat
  second_beat : Nat
  next_bar : Nat
  fourth_beat : Nat
  second_bar : Nat
  eighth_beat : Nat
  pitch_raw : Nat
  bpm_raw : Nat
  beat : Nat
  deriving DecidableEq, Repr

/-- Model of `message::Message`. -/
inductive Message where
  | peerJoined (p : MsgPeer)
  | peerLeft (p : MsgPeer)
  | newTrack (t : Track)
  | beat (b : BeatEvent)
  deriving DecidableEq, Repr

/-- Model of the crate-level `Peer` owned by the membership task (fields
taken from its uses in `tasks/membership.rs`; `last_seen` is a monotonic
timestamp in milliseconds). -/
structure Peer where
  name : List Nat
  device_num : Nat
  mac_addr : List Nat
  ip_addr : List Nat
  proto_ver : Nat
  last_seen : Nat
  deriving DecidableEq, Repr

/-- Model of the crate-level `PeerEvent` broadcast. -/
inductive PeerEvent where
  | joined (p : Peer)
  | left (p : Peer)
  deriving DecidableEq, Repr

/-! Association lists stand in for `HashMap`: `alGet`, `alInsert` and
`alRemove` model `get`/`contains_key`, `insert` and `remove` keyed by a
`Nat`.  Key uniqueness (a `HashMap` invariant) appears as `Nodup`
hypotheses where a theorem needs it. -/

def alGet (k : Nat) : List (Nat × α) → Option α
  | [] => none
  | (k2, v) :: rest => if k2 = k then some v else alGet k rest

def alInsert (k : Nat) (v : α) : List (Nat × α) → List (Nat × α)
  | [] => [(k, v)]
  | (k2, v2) :: rest =>
    if k2 = k then (k, v) :: rest else (k2, v2) :: alInsert k v rest

def alRemove (k : Nat) : List (Nat × α) → List (Nat × α)
  | [] => []
  | (k2, v2) :: rest =>
    if k2 = k then rest else (k2, v2) :: alRemove k rest

/-! ## The status task (`tasks/status.rs`)

`StatusTask::handle_player_status_packet` drops packets from unknown
players, records the observed `Track` per player device, and on a change
either pushes `NewTrack` directly (`rekordbox_id == 0`) or spawns a
fire-and-forget metadata fetch whose success ends in one `NewTrack`.
`StatusStep` records which of those paths a packet took.  The constructed
track always carries empty metadata and no artwork (the source writes the
empty value of the metadata field and `artwork: None`). -/

structure StatusState where
  peers : List (Nat × Peer)
  currentTracks : List (Nat × Track)
  deriving DecidableEq, Repr

/-- The `Track` value built from a `PlayerStatusPacket` at the top of
`handle_player_status_packet`. -/
def trackOfStatus (pkt : PlayerStatusPacket) : Track :=
  { player_device := pkt.device_num, track_device := pkt.track_device,
    track_slot := pkt.track_slot, track_type := pkt.track_type,
    rekordbox_id := pkt.rekordbox_id, metadata := none, artwork := none }

inductive StatusStep where
  /-- Unknown player: the packet is logged and dropped. -/
  | droppedUnknownPlayer
  /-- The recorded track equals the observed one: nothing is emitted. -/
  | noChange
  /-- `rekordbox_id == 0`: `NewTrack` is sent on the message channel. -/
  | sentNewTrack
  /-- `rekordbox_id != 0` and the source peer is known: a metadata-fetch
  subtask is spawned, which sends at most one `NewTrack`. -/
  | spawnedMetadataFetch
  /-- `rekordbox_id != 0` but `peers.get(track_device)` failed: the
  handler returns an error and the task's run loop terminates. -/
  | errUnknownTrackDevice
  deriving DecidableEq, Repr

/-- Whether a step can put a `NewTrack` on the message channel. -/
def StatusStep.emits : StatusStep → Bool
  | .sentNewTrack => true
  | .spawnedMetadataFetch => true
  | _ => false

/-- Embedding of `StatusTask::handle_player_status_packet`. -/
def handlePlayerStatusPacket (st : StatusState) (pkt : PlayerStatusPacket) :
    StatusState × StatusStep :=
  if (alGet pkt.device_num st.peers).isNone then (st, .droppedUnknownPlayer)
  else
    let track := trackOfStatus pkt
    let prev := alGet pkt.device_num st.currentTracks
    let st2 := { st with
      currentTracks := alInsert pkt.device_num track st.currentTracks }
    if prev = some track then (st2, .noChange)
    else if track.rekordbox_id ≠ 0 then
      match alGet track.track_device st.peers with
      | some _peer => (st2, .spawnedMetadataFetch)
      | none => (st2, .errUnknownTrackDevice)
    else (st2, .sentNewTrack)

/-- One iteration of the status task's select loop: a peer event updates
the peer table, a parsed `PlayerStatus` packet goes through
`handle_player_status_packet`. -/
inductive StatusEvent where
  | peerJoined (p : Peer)
  | peerLeft (p : Peer)
  | statusPacket (pkt : PlayerStatusPacket)

def statusStep (st : StatusState) : StatusEvent → StatusState × StatusStep
  | .peerJoined p =>
    ({ st with peers := alInsert p.device_num p st.peers }, .noChange)
  | .peerLeft p =>
    ({ st with peers := alRemove p.device_num st.peers }, .noChange)
  | .statusPacket pkt => handlePlayerStatusPacket st pkt

/-- Number of `NewTrack` emissions over a run of the status task; the run
stops when the handler returns an error (the task's `?` operator). -/
def countNewTracks (st : StatusState) : List StatusEvent → Nat
  | [] => 0
  | ev :: rest =>
    match statusStep st ev with
    | (_, .errUnknownTrackDevice) => 0
    | (st2, out) => (if out.emits then 1 else 0) + countNewTracks st2 rest

/-! ## The membership task (`tasks/membership.rs`)

`process_timeouts` collects the ids of peers whose `last_seen` is more
than ten seconds old, then removes each and emits `PeerLeft` on both the
public message channel and the `PeerEvent` broadcast.  Instants are in
milliseconds, so `Duration::from_secs(10)` is the constant 10000. -/

def tenSecondsMs : Nat := 10000

/-- The timeout predicate `(now - peer.last_seen) > Duration::from_secs(10)`.
`Instant` subtraction saturates at zero, as does `Nat` subtraction. -/
def timedOut (now : Nat) (p : Peer) : Bool :=
  tenSecondsMs < now - p.last_seen

/-- The removal-and-emission loop of `process_timeouts`, folded over the
collected ids.  `peers.remove(&id)` can only miss if the id is absent,
in which case nothing is emitted for it. -/
def removeEmit : List Nat → List (Nat × Peer) →
    List (Nat × Peer) × List Message × List PeerEvent
  | [], peers => (peers, [], [])
  | id :: rest, peers =>
    match alGet id peers with
    | some peer =>
      let out := removeEmit rest (alRemove id peers)
      (out.1,
        .peerLeft { name := peer.name, device_num := peer.device_num } :: out.2.1,
        .left peer :: out.2.2)
    | none => removeEmit rest peers

/-- Embedding of `MembershipTask::process_timeouts`: the remaining peer
table, the `PeerLeft` messages pushed to the public channel, and the
`PeerEvent::Left` broadcasts, in order. -/
def processTimeouts (now : Nat) (peers : List (Nat × Peer)) :
    List (Nat × Peer) × List Message × List PeerEvent :=
  let timedOutIds := (peers.filter fun p => timedOut now p.2).map (·.1)
  removeEmit timedOutIds peers

/-! ## The metadata task (`tasks/metadata.rs`)

`MetadataTask` keys one NFS client and one two-level database cache by
peer device number.  `metadata_request` looks the client up with
`.get_mut(&request.device).unwrap()` — the unwrap panics when no client
exists for that device.  Network effects (`fetch_database` body past the
slot check, `client.get_file`) are oracle parameters; everything else is
embedded from the source. -/

structure RawAlbum where
  artist_id : Nat
  id : Nat
  name : List Nat
  deriving DecidableEq, Repr

structure RawTrack where
  sample_rate : Nat
  composer_id : Nat
  file_size : Nat
  artwork_id : Nat
  key_id : Nat
  original_artist_id : Nat
  label_id : Nat
  remixer_id : Nat
  bitrate : Nat
  track_number : Nat
  tempo : Nat
  genre_id : Nat
  album_id : Nat
  artist_id : Nat
  id : Nat
  disc : Nat
  play_count : Nat
  year : Nat
  sample_depth : Nat
  duration : Nat
  color_id : Nat
  rating : Nat
  strings : List (List Nat)
  deriving DecidableEq, Repr

structure Database where
  albums : List (Nat × RawAlbum)
  artists : List (Nat × List Nat)
  artwork : List (Nat × List Nat)
  colors : List (Nat × List Nat)
  generes : List (Nat × List Nat)
  keys : List (Nat × List Nat)
  labels : List (Nat × List Nat)
  tracks : List (Nat × RawTrack)
  deriving DecidableEq, Repr

structure TrackInfo where
  metadata : TrackMetadata
  artwork : Option (List Nat)
  deriving DecidableEq, Repr

structure MetadataRequest where
  device : Nat
  slot : Nat
  rekordbox_id : Nat
  deriving DecidableEq, Repr

/-- The `NfsClient` handle is opaque to the request logic (only its
presence in the map matters before the network calls). -/
structure MetadataTaskState where
  nfsClients : List (Nat × Unit)
  databases : List (Nat × List (Nat × Database))
  deriving DecidableEq, Repr

/-- Network-dependent results: the bytes `client.get_file(path)` returns
for a path, and the `Database` decoded from the fetched `export.pdb`
(`Database::parse` itself is outside the scope of the modelled claims). -/
structure NfsOracle where
  getFile : List Nat → Except Unit (List Nat)
  parseDatabase : List Nat → Except Unit Database

/-- UTF-8 bytes of the string "/B". -/
def slotPrefixB : List Nat := [0x2f, 0x42]

/-- UTF-8 bytes of the string "/C". -/
def slotPrefixC : List Nat := [0x2f, 0x43]

/-- UTF-8 bytes of "/PIONEER/rekordbox/export.pdb". -/
def exportPdbSuffix : List Nat :=
  [0x2f, 0x50, 0x49, 0x4f, 0x4e, 0x45, 0x45, 0x52, 0x2f, 0x72, 0x65, 0x6b,
   0x6f, 0x72, 0x64, 0x62, 0x6f, 0x78, 0x2f, 0x65, 0x78, 0x70, 0x6f, 0x72,
   0x74, 0x2e, 0x70, 0x64, 0x62]

/-- Embedding of `MetadataTask::slot_prefix`: 2 is the USB slot `/B`, 3
is the SD slot `/C`, anything else is an `Unsupported`-style error. -/
def slotPrefix (slot : Nat) : Except Unit (List Nat) :=
  if slot = 2 then .ok slotPrefixB
  else if slot = 3 then .ok slotPrefixC
  else .error ()

/-- Embedding of `MetadataTask::fetch_database`. -/
def fetchDatabase (oracle : NfsOracle) (slot : Nat) : Except Unit Database :=
  match slotPrefix slot with
  | .error e => .error e
  | .ok pre =>
    match oracle.getFile (pre ++ exportPdbSuffix) with
    | .error e => .error e
    | .ok data => oracle.parseDatabase data

/-- Embedding of the pure tail of `metadata_request`: the satellite-table
joins and the artwork fetch, given the database and the track row.  Track
string indices 0, 10, 11, 12, 16 and 17 are `Vec` indexing and panic when
the row has fewer than 18 strings. -/
def buildTrackInfo (oracle : NfsOracle) (slot : Nat) (db : Database)
    (track : RawTrack) : RustOutcome (Except Unit TrackInfo) :=
  let blank : List Nat := []
  let composer := (alGet track.composer_id db.artists).getD blank
  let key := (alGet track.key_id db.keys).getD blank
  let originalArtist := (alGet track.original_artist_id db.artists).getD blank
  let label := (alGet track.label_id db.labels).getD blank
  let remixer := (alGet track.remixer_id db.artists).getD blank
  let genere := (alGet track.genre_id db.generes).getD blank
  let albumPair :=
    match alGet track.album_id db.albums with
    | some album => (album.name, (alGet album.artist_id db.artists).getD blank)
    | none => (blank, blank)
  let artist := (alGet track.artist_id db.artists).getD blank
  let color := (alGet track.color_id db.colors).getD blank
  -- `Self::slot_prefix(request.slot)?` propagates an error; a failed
  -- `get_file` only logs and leaves the artwork as `None`.
  let artworkRes : Except Unit (Option (List Nat)) :=
    match alGet track.artwork_id db.artwork with
    | some path =>
      match slotPrefix slot with
      | .error e => .error e
      | .ok pre =>
        match oracle.getFile (pre ++ path) with
        | .ok data => .ok (some data)
        | .error _ => .ok none
    | none => .ok none
  match artworkRes with
  | .error e => .returns (.error e)
  | .ok artwork =>
  if track.strings.length ≤ 17 then .panics
  else .returns (.ok
    { metadata :=
      { sample_rate := track.sample_rate, composer := composer,
        file_size := track.file_size, key := key,
        original_artist := originalArtist, label := label,
        remixer := remixer, bitrate := track.bitrate,
        track_number := track.track_number, tempo_raw := track.tempo,
        genre := genere, album_name := albumPair.1,
        album_artist := albumPair.2, artist := artist, disc := track.disc,
        play_count := track.play_count, year := track.year,
        sample_depth := track.sample_depth, duration := track.duration,
        color := color, rating := track.rating,
        isrc := track.strings.getD 0 [], date_added := track.strings.getD 10 [],
        release_date := track.strings.getD 11 [],
        mix_name := track.strings.getD 12 [],
        comment := track.strings.getD 16 [],
        title := track.strings.getD 17 [] },
      artwork := artwork })

/-- The artwork fetch in `metadata_request` re-derives the slot prefix
with `Self::slot_prefix(request.slot)?`; by that point the slot was
already validated inside `fetch_database`, except when the database was
cached.  `buildTrackInfo` folds that lookup in. -/
def metadataRequest (oracle : NfsOracle) (st : MetadataTaskState)
    (req : MetadataRequest) :
    RustOutcome (Except Unit TrackInfo × MetadataTaskState) :=
  -- `self.databases.entry(request.device).or_insert_with(HashMap::new)`
  let dbs := (alGet req.device st.databases).getD []
  let st := { st with databases := alInsert req.device dbs st.databases }
  -- `self.nfs_clients.get_mut(&request.device).unwrap()`
  match alGet req.device st.nfsClients with
  | none => .panics
  | some _client =>
    let fetched : Except Unit (List (Nat × Database)) :=
      if (alGet req.slot dbs).isNone then
        match fetchDatabase oracle req.slot with
        | .error e => .error e
        | .ok db => .ok (alInsert req.slot db dbs)
      else .ok dbs
    match fetched with
    | .error e => .returns (.error e, st)
    | .ok dbs =>
      let st := { st with databases := alInsert req.device dbs st.databases }
      match alGet req.slot dbs with
      | none => .panics
      | some db =>
        match alGet req.rekordbox_id db.tracks with
        | none => .returns (.error (), st)
        | some track =>
          match buildTrackInfo oracle req.slot db track with
          | .panics => .panics
          | .returns res => .returns (res, st)

/-- Embedding of `metadata_request_wrapper`: the one-shot reply carries
the `Result` of `metadata_request`; when `metadata_request` panics,
nothing is ever sent on the reply channel. -/
def metadataRequestWrapper (oracle : NfsOracle) (st : MetadataTaskState)
    (req : MetadataRequest) :
    RustOutcome (Except Unit TrackInfo × MetadataTaskState) :=
  metadataRequest oracle st req

/-! ## The NFS linked-list decoders (`prolink-nfs`)

`Mount::mount_list_to_vec` and `Nfs::dir_list_to_vec` walk an XDR
linked-list reply in wire order.  Each entry's opaque name is UTF-16LE;
an odd byte count makes the function return immediately, dropping that
entry and the whole tail.  The wire lists are modelled as the list of
raw name byte strings in order; the `&mut Vec` accumulation is the same
as the structural recursion used here. -/

/-- Embedding of `Mount::mount_list_to_vec` (mount.rs). -/
def mountListToVec : List (List Nat) → List (List Nat)
  | [] => []
  | name :: rest =>
    if name.length % 2 ≠ 0 then []
    else utf8Encode (utf16LossyDecode (leU16Chunks name)) :: mountListToVec rest

/-- Embedding of `Nfs::dir_list_to_vec` (nfs.rs); the body is the same
as the mount variant. -/
def dirListToVec : List (List Nat) → List (List Nat)
  | [] => []
  | name :: rest =>
    if name.length % 2 ≠ 0 then []
    else utf8Encode (utf16LossyDecode (leU16Chunks name)) :: dirListToVec rest

/-! ## Claim C1: control-packet round trips

The round-trip lemmas below need a well-formedness predicate on names
(every Rust `String` satisfies the UTF-8 part by construction) and a
normal form for `write_header` output. -/

/-- Conditions under which a device name survives the 20-byte field:
valid UTF-8 (a `String` invariant), at most 20 bytes, and no trailing
NUL (which `device_name` would strip). -/
def WfName (name : List Nat) : Prop :=
  utf8ValidB name = true ∧ name.length ≤ 20 ∧ name.getLast? ≠ some 0

theorem writeHeader_append (pt : Nat) (name : List Nat) (ver len : Nat)
    (rest : List Nat) :
    writeHeader pt name ver len ++ rest =
      HEADERc ++ (pt % 256) :: 0x00 :: (writeDeviceName name ++
        0x01 :: (ver % 256) :: (len / 256 % 256) :: (len % 256) :: rest) := by
  simp [writeHeader, w8, w16be, List.append_assoc]

theorem negotiationHeader_writeHeader (pt : Nat) (name : List Nat)
    (ver len : Nat) (rest : List Nat) (hname : WfName name)
    (hpt : pt < 256) (hver : ver < 256) :
    negotiationHeader pt (writeHeader pt name ver len ++ rest) =
      some ({ name := name, proto_ver := ver }, rest) := by
  obtain ⟨hval, hle, hlast⟩ := hname
  rw [writeHeader_append, Nat.mod_eq_of_lt hpt, Nat.mod_eq_of_lt hver]
  simp only [negotiationHeader, headerP, pTag_self_append, deviceNameP,
    pTake_of_length (writeDeviceName_length name),
    deviceName_writeDeviceName hval hle hlast, pU8, pU16, pTag,
    eq_self_iff_true, if_true]

theorem announce_write_parse (p : AnnouncePacket) (hname : WfName p.name)
    (hver : p.proto_ver < 256) :
    AnnouncePacket.parse (AnnouncePacket.write p) =
      some (Packet.announce p, if p.proto_ver = 3 then [0x00] else []) := by
  by_cases h3 : p.proto_ver = 3
  · simp only [AnnouncePacket.parse, AnnouncePacket.write, if_pos h3, w8,
      Nat.reduceMod, List.append_assoc, List.cons_append,
      List.singleton_append, List.nil_append,
      negotiationHeader_writeHeader 0x0a p.name p.proto_ver _ _ hname
        (by decide) hver,
      pTag, eq_self_iff_true, if_true]
  · simp only [AnnouncePacket.parse, AnnouncePacket.write, if_neg h3, w8,
      Nat.reduceMod, List.append_assoc, List.cons_append,
      List.singleton_append, List.nil_append, List.append_nil,
      negotiationHeader_writeHeader 0x0a p.name p.proto_ver _ _ hname
        (by decide) hver,
      pTag, eq_self_iff_true, if_true]

theorem claim1_write_parse (p : DeviceNumClaim1Packet) (hname : WfName p.name)
    (hver : p.proto_ver < 256) (hnum : p.pkt_num < 256)
    (hmac : p.mac_addr.length = 6) :
    DeviceNumClaim1Packet.parse (DeviceNumClaim1Packet.write p) =
      some (Packet.deviceNumClaim1 p, []) := by
  simp only [DeviceNumClaim1Packet.parse, DeviceNumClaim1Packet.write, w8,
    Nat.reduceMod, Nat.mod_eq_of_lt hnum, List.append_assoc,
    List.cons_append, List.singleton_append, List.nil_append,
    negotiationHeader_writeHeader 0x00 p.name p.proto_ver _ _ hname
      (by decide) hver,
    pU8, pTag, eq_self_iff_true, if_true,
    pTake_of_length hmac, List.append_nil]
  rw [show pTake 6 p.mac_addr = some (p.mac_addr, ([] : List Nat)) from
    pTake_eq_some.mpr ⟨(List.append_nil _).symm, hmac⟩]

theorem claim2_write_parse (p : DeviceNumClaim2Packet) (hname : WfName p.name)
    (hver : p.proto_ver < 256) (hip : p.ip_addr.length = 4)
    (hmac : p.mac_addr.length = 6) (hdev : p.device_num < 256)
    (hnum : p.pkt_num < 256) :
    DeviceNumClaim2Packet.parse (DeviceNumClaim2Packet.write p) =
      some (Packet.deviceNumClaim2 p, []) := by
  obtain ⟨name, ver, ip, mac, dev, num, auto⟩ := p
  cases auto <;>
    simp only [DeviceNumClaim2Packet.parse, DeviceNumClaim2Packet.write, w8,
      Nat.reduceMod, List.append_assoc, List.cons_append,
      List.singleton_append, List.nil_append, Bool.false_eq_true, if_false,
      if_true, Nat.mod_eq_of_lt hdev, Nat.mod_eq_of_lt hnum,
      negotiationHeader_writeHeader 0x02 name ver _ _ hname (by decide) hver,
      pTake_of_length hip, pTake_of_length hmac, pU8, pTag,
      eq_self_iff_true, decide_eq_true_eq, OfNat.ofNat_ne_one,
      decide_eq_false_iff_not, List.append_nil] <;>
    rfl

theorem claim3_write_parse (p : DeviceNumClaim3Packet) (hname : WfName p.name)
    (hver : p.proto_ver < 256) (hdev : p.device_num < 256)
    (hnum : p.pkt_num < 256) :
    DeviceNumClaim3Packet.parse (DeviceNumClaim3Packet.write p) =
      some (Packet.deviceNumClaim3 p, []) := by
  simp only [DeviceNumClaim3Packet.parse, DeviceNumClaim3Packet.write, w8,
    Nat.reduceMod, Nat.mod_eq_of_lt hdev, Nat.mod_eq_of_lt hnum,
    List.append_assoc, List.cons_append, List.singleton_append,
    List.nil_append,
    negotiationHeader_writeHeader 0x04 p.name p.proto_ver _ _ hname
      (by decide) hver,
    pU8]

theorem keepAlive_write_parse (p : KeepAlivePacket) (hname : WfName p.name)
    (hver : p.proto_ver < 256) (hdev : p.device_num < 256)
    (hdt : p.device_type < 256) (hmac : p.mac_addr.length = 6)
    (hip : p.ip_addr.length = 4) (hps : p.peers_seen < 256)
    (hu35 : p.unknown_35 < 256) :
    KeepAlivePacket.parse (KeepAlivePacket.write p) =
      some (Packet.keepAlive p, []) := by
  simp only [KeepAlivePacket.parse, KeepAlivePacket.write, w8,
    Nat.reduceMod, Nat.mod_eq_of_lt hdev, Nat.mod_eq_of_lt hdt,
    Nat.mod_eq_of_lt hps, Nat.mod_eq_of_lt hu35, List.append_assoc,
    List.cons_append, List.singleton_append, List.nil_append,
    negotiationHeader_writeHeader 0x06 p.name p.proto_ver _ _ hname
      (by decide) hver,
    pU8, pTag, eq_self_iff_true, if_true,
    pTake_of_length hmac, pTake_of_length hip, List.append_nil]

/-- Inversion of the device-name field parser: success exposes the raw
20-byte field. -/
theorem deviceNameP_eq_some {i nm r : List Nat}
    (h : deviceNameP i = some (nm, r)) :
    ∃ raw, raw.length = 20 ∧ i = raw ++ r ∧ nm = deviceName raw := by
  unfold deviceNameP at h
  split at h
  · exact Option.noConfusion h
  next raw r0 ht =>
    obtain ⟨hi, hl⟩ := pTake_eq_some.mp ht
    simp only [Option.some.injEq, Prod.mk.injEq] at h
    exact ⟨raw, hl, by rw [hi, h.2], h.1.symm⟩

/-- Inversion of `negotiation_header`: an accepted input is the magic,
the packet type, `0x00`, a raw 20-byte name field, `0x01`, the protocol
version and a two-byte length (whose value the parser ignores). -/
theorem negotiationHeader_shape {pt : Nat} {i : List Nat} {hdr : PacketHeader}
    {r : List Nat} (h : negotiationHeader pt i = some (hdr, r)) :
    ∃ raw ver lh ll, raw.length = 20 ∧
      hdr = { name := deviceName raw, proto_ver := ver } ∧
      i = HEADERc ++ (pt :: 0x00 :: (raw ++ (0x01 :: ver :: lh :: ll :: r))) := by
  unfold negotiationHeader at h
  split at h
  · exact Option.noConfusion h
  next i1 h1 =>
  split at h
  · exact Option.noConfusion h
  next i2 h2 =>
  split at h
  · exact Option.noConfusion h
  next nm i3 h3 =>
  split at h
  · exact Option.noConfusion h
  next i4 h4 =>
  split at h
  · exact Option.noConfusion h
  next ver i5 h5 =>
  split at h
  · exact Option.noConfusion h
  next len i6 h6 =>
  obtain ⟨raw, hl20, hi2, hnm⟩ := deviceNameP_eq_some h3
  obtain ⟨b1, b0, hi5, hlen⟩ := pU16_eq_some.mp h6
  simp only [Option.some.injEq, Prod.mk.injEq] at h
  refine ⟨raw, ver, b1, b0, hl20, ?_, ?_⟩
  · rw [← h.1, hnm]
  · rw [pTag_eq_some.mp h1, pTag_eq_some.mp h2, hi2, pTag_eq_some.mp h4,
      pU8_eq_some.mp h5]
    simp only [List.cons_append, List.nil_append, List.append_assoc]
    rw [hi5, h.2]

theorem drop12_take20 {raw : List Nat} (h : raw.length = 20) (a b : Nat)
    (t : List Nat) :
    ((HEADERc ++ (a :: b :: (raw ++ t))).drop 12).take 20 = raw := by
  rw [show HEADERc ++ (a :: b :: (raw ++ t)) =
      (HEADERc ++ [a, b]) ++ (raw ++ t) by simp,
    List.drop_left' (by simp [HEADERc]), List.take_left' h]

theorem drop34_take2 {raw : List Nat} (h : raw.length = 20) (a b c d x y : Nat)
    (t : List Nat) :
    ((HEADERc ++ (a :: b :: (raw ++ (c :: d :: x :: y :: t)))).drop 34).take 2 =
      [x, y] := by
  rw [show HEADERc ++ (a :: b :: (raw ++ (c :: d :: x :: y :: t))) =
      (HEADERc ++ (a :: b :: (raw ++ [c, d]))) ++ (x :: y :: t) by simp,
    List.drop_left' (by simp [HEADERc, h])]
  rfl

/-- Inversion of `KeepAlivePacket::parse`: an accepted input has the
negotiation header followed by the keep-alive payload. -/
theorem keepAlive_parse_shape {i : List Nat} {p : KeepAlivePacket}
    {r : List Nat} (h : KeepAlivePacket.parse i = some (Packet.keepAlive p, r)) :
    ∃ raw ver lh ll dev dt mac ip ps u35, raw.length = 20 ∧ mac.length = 6 ∧
      ip.length = 4 ∧
      p = { name := deviceName raw, proto_ver := ver, device_num := dev,
            device_type := dt, mac_addr := mac, ip_addr := ip,
            peers_seen := ps, unknown_35 := u35 } ∧
      i = HEADERc ++ (0x06 :: 0x00 :: (raw ++ (0x01 :: ver :: lh :: ll ::
        (dev :: dt :: (mac ++ (ip ++ (ps :: 0x00 :: 0x00 :: 0x00 :: 0x01 ::
          u35 :: r))))))) := by
  unfold KeepAlivePacket.parse at h
  split at h
  · exact Option.noConfusion h
  next hdr i1 h1 =>
  split at h
  · exact Option.noConfusion h
  next dev i2 h2 =>
  split at h
  · exact Option.noConfusion h
  next dt i3 h3 =>
  split at h
  · exact Option.noConfusion h
  next mac i4 h4 =>
  split at h
  · exact Option.noConfusion h
  next ip i5 h5 =>
  split at h
  · exact Option.noConfusion h
  next ps i6 h6 =>
  split at h
  · exact Option.noConfusion h
  next i7 h7 =>
  split at h
  · exact Option.noConfusion h
  next u35 i8 h8 =>
  obtain ⟨raw, ver, lh, ll, hl20, hhdr, hi⟩ := negotiationHeader_shape h1
  obtain ⟨hmac, hmac6⟩ := pTake_eq_some.mp h4
  obtain ⟨hip, hip4⟩ := pTake_eq_some.mp h5
  simp only [Option.some.injEq, Prod.mk.injEq, Packet.keepAlive.injEq] at h
  refine ⟨raw, ver, lh, ll, dev, dt, mac, ip, ps, u35, hl20, hmac6, hip4, ?_, ?_⟩
  · rw [← h.1, hhdr]
  · rw [hi, pU8_eq_some.mp h2, pU8_eq_some.mp h3, hmac, hip,
      pU8_eq_some.mp h6, pTag_eq_some.mp h7, pU8_eq_some.mp h8, h.2]
    simp [List.append_assoc]

/-- Re-encoding an accepted keep-alive packet: the bytes are reproduced
when the ignored length field holds the canonical `0x36` and the raw
name field is the canonical encoding of the parsed name. -/
theorem keepAlive_parse_write {i : List Nat} {p : KeepAlivePacket}
    (h : KeepAlivePacket.parse i = some (Packet.keepAlive p, []))
    (hb : ∀ b ∈ i, b < 256)
    (hname : (i.drop 12).take 20 = writeDeviceName p.name)
    (hlen : (i.drop 34).take 2 = [0x00, 0x36]) :
    KeepAlivePacket.write p = i := by
  obtain ⟨raw, ver, lh, ll, dev, dt, mac, ip, ps, u35, hl20, hm6, hip4, hp, hi⟩ :=
    keepAlive_parse_shape h
  subst hp
  subst hi
  rw [drop12_take20 hl20] at hname
  rw [drop34_take2 hl20] at hlen
  simp only [List.cons.injEq, and_true] at hlen
  obtain ⟨hlh, hll⟩ := hlen
  subst hlh; subst hll
  have hver : ver < 256 := hb ver (by simp)
  have hdev : dev < 256 := hb dev (by simp)
  have hdt : dt < 256 := hb dt (by simp)
  have hps : ps < 256 := hb ps (by simp)
  have hu35 : u35 < 256 := hb u35 (by simp)
  simp only [KeepAlivePacket.write, List.append_assoc, writeHeader_append, w8,
    Nat.mod_eq_of_lt hver, Nat.mod_eq_of_lt hdev, Nat.mod_eq_of_lt hdt,
    Nat.mod_eq_of_lt hps, Nat.mod_eq_of_lt hu35, Nat.reduceMod, Nat.reduceDiv,
    ← hname, List.cons_append, List.singleton_append, List.nil_append,
    List.append_nil]

/-- Inversion of `AnnouncePacket::parse`. -/
theorem announce_parse_shape {i : List Nat} {p : AnnouncePacket} {r : List Nat}
    (h : AnnouncePacket.parse i = some (Packet.announce p, r)) :
    ∃ raw ver lh ll, raw.length = 20 ∧
      p = { name := deviceName raw, proto_ver := ver } ∧
      i = HEADERc ++ (0x0a :: 0x00 :: (raw ++ (0x01 :: ver :: lh :: ll ::
        (0x01 :: r)))) := by
  unfold AnnouncePacket.parse at h
  split at h
  · exact Option.noConfusion h
  next hdr i1 h1 =>
  split at h
  · exact Option.noConfusion h
  next i2 h2 =>
  obtain ⟨raw, ver, lh, ll, hl20, hhdr, hi⟩ := negotiationHeader_shape h1
  simp only [Option.some.injEq, Prod.mk.injEq, Packet.announce.injEq] at h
  refine ⟨raw, ver, lh, ll, hl20, ?_, ?_⟩
  · rw [← h.1, hhdr]
  · rw [hi, pTag_eq_some.mp h2, h.2]
    simp

/-- Re-encoding an accepted announce packet: the parser leaves the
version-3 trailing `0x00` unconsumed, so the bytes are reproduced when
the leftover matches that trailer and the ignored fields are canonical. -/
theorem announce_parse_write {i : List Nat} {p : AnnouncePacket} {r : List Nat}
    (h : AnnouncePacket.parse i = some (Packet.announce p, r))
    (hr : r = if p.proto_ver = 3 then [0x00] else [])
    (hb : ∀ b ∈ i, b < 256)
    (hname : (i.drop 12).take 20 = writeDeviceName p.name)
    (hlen : (i.drop 34).take 2 =
      [0x00, if p.proto_ver = 3 then 0x26 else 0x25]) :
    AnnouncePacket.write p = i := by
  obtain ⟨raw, ver, lh, ll, hl20, hp, hi⟩ := announce_parse_shape h
  subst hp
  subst hr
  subst hi
  rw [drop12_take20 hl20] at hname
  rw [drop34_take2 hl20] at hlen
  simp only [List.cons.injEq, and_true] at hlen
  obtain ⟨hlh, hll⟩ := hlen
  subst hlh; subst hll
  have hver : ver < 256 := hb ver (by simp)
  by_cases h3 : ver = 3
  · simp only [AnnouncePacket.write, h3, List.append_assoc, writeHeader_append,
      w8, Nat.reduceMod, Nat.reduceDiv, reduceIte, ← hname, List.cons_append,
      List.singleton_append, List.nil_append, List.append_nil]
  · simp only [AnnouncePacket.write, List.append_assoc, writeHeader_append,
      w8, Nat.reduceMod, Nat.reduceDiv, if_neg h3, Nat.mod_eq_of_lt hver,
      ← hname, List.cons_append, List.singleton_append, List.nil_append,
      List.append_nil]

/-- Inversion of `DeviceNumClaim1Packet::parse`. -/
theorem claim1_parse_shape {i : List Nat} {p : DeviceNumClaim1Packet}
    {r : List Nat}
    (h : DeviceNumClaim1Packet.parse i = some (Packet.deviceNumClaim1 p, r)) :
    ∃ raw ver lh ll num mac, raw.length = 20 ∧ mac.length = 6 ∧
      p = { name := deviceName raw, proto_ver := ver, pkt_num := num,
            mac_addr := mac } ∧
      i = HEADERc ++ (0x00 :: 0x00 :: (raw ++ (0x01 :: ver :: lh :: ll ::
        (num :: 0x01 :: (mac ++ r))))) := by
  unfold DeviceNumClaim1Packet.parse at h
  split at h
  · exact Option.noConfusion h
  next hdr i1 h1 =>
  split at h
  · exact Option.noConfusion h
  next num i2 h2 =>
  split at h
  · exact Option.noConfusion h
  next i3 h3 =>
  split at h
  · exact Option.noConfusion h
  next mac i4 h4 =>
  obtain ⟨raw, ver, lh, ll, hl20, hhdr, hi⟩ := negotiationHeader_shape h1
  obtain ⟨hmac, hmac6⟩ := pTake_eq_some.mp h4
  simp only [Option.some.injEq, Prod.mk.injEq,
    Packet.deviceNumClaim1.injEq] at h
  refine ⟨raw, ver, lh, ll, num, mac, hl20, hmac6, ?_, ?_⟩
  · rw [← h.1, hhdr]
  · rw [hi, pU8_eq_some.mp h2, pTag_eq_some.mp h3, hmac, h.2]
    simp [List.append_assoc]

/-- Re-encoding an accepted claim-1 packet. -/
theorem claim1_parse_write {i : List Nat} {p : DeviceNumClaim1Packet}
    (h : DeviceNumClaim1Packet.parse i = some (Packet.deviceNumClaim1 p, []))
    (hb : ∀ b ∈ i, b < 256)
    (hname : (i.drop 12).take 20 = writeDeviceName p.name)
    (hlen : (i.drop 34).take 2 = [0x00, 0x2c]) :
    DeviceNumClaim1Packet.write p = i := by
  obtain ⟨raw, ver, lh, ll, num, mac, hl20, hm6, hp, hi⟩ := claim1_parse_shape h
  subst hp
  subst hi
  rw [drop12_take20 hl20] at hname
  rw [drop34_take2 hl20] at hlen
  simp only [List.cons.injEq, and_true] at hlen
  obtain ⟨hlh, hll⟩ := hlen
  subst hlh; subst hll
  have hver : ver < 256 := hb ver (by simp)
  have hnum : num < 256 := hb num (by simp)
  simp only [DeviceNumClaim1Packet.write, List.append_assoc, writeHeader_append,
    w8, Nat.mod_eq_of_lt hver, Nat.mod_eq_of_lt hnum, Nat.reduceMod,
    Nat.reduceDiv, ← hname, List.cons_append, List.singleton_append,
    List.nil_append, List.append_nil]

/-- Inversion of `DeviceNumClaim2Packet::parse`: the `auto_assign` flag
records whether the last byte was exactly `0x01`. -/
theorem claim2_parse_shape {i : List Nat} {p : DeviceNumClaim2Packet}
    {r : List Nat}
    (h : DeviceNumClaim2Packet.parse i = some (Packet.deviceNumClaim2 p, r)) :
    ∃ raw ver lh ll ip mac dev num auto, raw.length = 20 ∧ ip.length = 4 ∧
      mac.length = 6 ∧
      p = { name := deviceName raw, proto_ver := ver, ip_addr := ip,
            mac_addr := mac, device_num := dev, pkt_num := num,
            auto_assign := decide (auto = 0x01) } ∧
      i = HEADERc ++ (0x02 :: 0x00 :: (raw ++ (0x01 :: ver :: lh :: ll ::
        (ip ++ (mac ++ (dev :: num :: 0x01 :: auto :: r)))))) := by
  unfold DeviceNumClaim2Packet.parse at h
  split at h
  · exact Option.noConfusion h
  next hdr i1 h1 =>
  split at h
  · exact Option.noConfusion h
  next ip i2 h2 =>
  split at h
  · exact Option.noConfusion h
  next mac i3 h3 =>
  split at h
  · exact Option.noConfusion h
  next dev i4 h4 =>
  split at h
  · exact Option.noConfusion h
  next num i5 h5 =>
  split at h
  · exact Option.noConfusion h
  next i6 h6 =>
  split at h
  · exact Option.noConfusion h
  next auto i7 h7 =>
  obtain ⟨raw, ver, lh, ll, hl20, hhdr, hi⟩ := negotiationHeader_shape h1
  obtain ⟨hip, hip4⟩ := pTake_eq_some.mp h2
  obtain ⟨hmac, hmac6⟩ := pTake_eq_some.mp h3
  simp only [Option.some.injEq, Prod.mk.injEq,
    Packet.deviceNumClaim2.injEq] at h
  refine ⟨raw, ver, lh, ll, ip, mac, dev, num, auto, hl20, hip4, hmac6, ?_, ?_⟩
  · rw [← h.1, hhdr]
  · rw [hi, hip, hmac, pU8_eq_some.mp h4, pU8_eq_some.mp h5,
      pTag_eq_some.mp h6, pU8_eq_some.mp h7, h.2]
    simp [List.append_assoc]

/-- Re-encoding an accepted claim-2 packet: also requires the auto-assign
byte to be one of the two values the writer can produce. -/
theorem claim2_parse_write {i : List Nat} {p : DeviceNumClaim2Packet}
    (h : DeviceNumClaim2Packet.parse i = some (Packet.deviceNumClaim2 p, []))
    (hb : ∀ b ∈ i, b < 256)
    (hname : (i.drop 12).take 20 = writeDeviceName p.name)
    (hlen : (i.drop 34).take 2 = [0x00, 0x32])
    (hauto : i.drop 49 = [0x01] ∨ i.drop 49 = [0x02]) :
    DeviceNumClaim2Packet.write p = i := by
  obtain ⟨raw, ver, lh, ll, ip, mac, dev, num, auto, hl20, hip4, hm6, hp, hi⟩ :=
    claim2_parse_shape h
  subst hp
  subst hi
  rw [drop12_take20 hl20] at hname
  rw [drop34_take2 hl20] at hlen
  simp only [List.cons.injEq, and_true] at hlen
  obtain ⟨hlh, hll⟩ := hlen
  subst hlh; subst hll
  rw [show HEADERc ++ (0x02 :: 0x00 :: (raw ++ (0x01 :: ver :: 0x00 :: 0x32 ::
      (ip ++ (mac ++ (dev :: num :: 0x01 :: auto :: ([] : List Nat))))))) =
      (HEADERc ++ (0x02 :: 0x00 :: (raw ++ (0x01 :: ver :: 0x00 :: 0x32 ::
        (ip ++ (mac ++ [dev, num, 0x01])))))) ++ [auto] by simp,
    List.drop_left' (by simp [HEADERc, hl20, hip4, hm6])] at hauto
  have hver : ver < 256 := hb ver (by simp)
  have hdev : dev < 256 := hb dev (by simp)
  have hnum : num < 256 := hb num (by simp)
  rcases hauto with ha | ha <;>
    rw [show auto = _ from (List.cons.injEq .. ▸ ha).1] <;>
    simp only [DeviceNumClaim2Packet.write, List.append_assoc,
      writeHeader_append, w8, Nat.mod_eq_of_lt hver, Nat.mod_eq_of_lt hdev,
      Nat.mod_eq_of_lt hnum, Nat.reduceMod, Nat.reduceDiv, decide_eq_true_eq,
      reduceIte, ← hname, List.cons_append, List.singleton_append,
      List.nil_append, List.append_nil] <;>
    try rfl

/-- Inversion of `DeviceNumClaim3Packet::parse`. -/
theorem claim3_parse_shape {i : List Nat} {p : DeviceNumClaim3Packet}
    {r : List Nat}
    (h : DeviceNumClaim3Packet.parse i = some (Packet.deviceNumClaim3 p, r)) :
    ∃ raw ver lh ll dev num, raw.length = 20 ∧
      p = { name := deviceName raw, proto_ver := ver, device_num := dev,
            pkt_num := num } ∧
      i = HEADERc ++ (0x04 :: 0x00 :: (raw ++ (0x01 :: ver :: lh :: ll ::
        (dev :: num :: r)))) := by
  unfold DeviceNumClaim3Packet.parse at h
  split at h
  · exact Option.noConfusion h
  next hdr i1 h1 =>
  split at h
  · exact Option.noConfusion h
  next dev i2 h2 =>
  split at h
  · exact Option.noConfusion h
  next num i3 h3 =>
  obtain ⟨raw, ver, lh, ll, hl20, hhdr, hi⟩ := negotiationHeader_shape h1
  simp only [Option.some.injEq, Prod.mk.injEq,
    Packet.deviceNumClaim3.injEq] at h
  refine ⟨raw, ver, lh, ll, dev, num, hl20, ?_, ?_⟩
  · rw [← h.1, hhdr]
  · rw [hi, pU8_eq_some.mp h2, pU8_eq_some.mp h3, h.2]

/-- Re-encoding an accepted claim-3 packet. -/
theorem claim3_parse_write {i : List Nat} {p : DeviceNumClaim3Packet}
    (h : DeviceNumClaim3Packet.parse i = some (Packet.deviceNumClaim3 p, []))
    (hb : ∀ b ∈ i, b < 256)
    (hname : (i.drop 12).take 20 = writeDeviceName p.name)
    (hlen : (i.drop 34).take 2 = [0x00, 0x26]) :
    DeviceNumClaim3Packet.write p = i := by
  obtain ⟨raw, ver, lh, ll, dev, num, hl20, hp, hi⟩ := claim3_parse_shape h
  subst hp
  subst hi
  rw [drop12_take20 hl20] at hname
  rw [drop34_take2 hl20] at hlen
  simp only [List.cons.injEq, and_true] at hlen
  obtain ⟨hlh, hll⟩ := hlen
  subst hlh; subst hll
  have hver : ver < 256 := hb ver (by simp)
  have hdev : dev < 256 := hb dev (by simp)
  have hnum : num < 256 := hb num (by simp)
  simp only [DeviceNumClaim3Packet.write, List.append_assoc, writeHeader_append,
    w8, Nat.mod_eq_of_lt hver, Nat.mod_eq_of_lt hdev, Nat.mod_eq_of_lt hnum,
    Nat.reduceMod, Nat.reduceDiv, ← hname, List.cons_append,
    List.singleton_append, List.nil_append, List.append_nil]

/-- A keep-alive packet whose ignored big-endian length field reads
`0x0000` instead of the canonical `0x0036`.  The parser accepts it (the
length is read and dropped), but re-encoding the parsed value writes the
canonical length, so the original bytes are not reproduced. -/
def c1BadLenBytes : List Nat :=
  [0x51, 0x73, 0x70, 0x74, 0x31, 0x57, 0x6d, 0x4a, 0x4f, 0x4c, 0x06, 0x00,
   0x43, 0x58, 0x00, 0x00, 0x00, 0x00, 0x00, 0x00, 0x00, 0x00, 0x00, 0x00,
   0x00, 0x00, 0x00, 0x00, 0x00, 0x00, 0x00, 0x00, 0x01, 0x02, 0x00, 0x00,
   0x03, 0x01, 0xaa, 0xbb, 0xcc, 0xdd, 0xee, 0xff, 0xc0, 0xa8, 0x01, 0x02,
   0x01, 0x00, 0x00, 0x00, 0x01, 0x00]

def c1BadLenPkt : KeepAlivePacket :=
  { name := [0x43, 0x58], proto_ver := 2, device_num := 3, device_type := 1,
    mac_addr := [0xaa, 0xbb, 0xcc, 0xdd, 0xee, 0xff],
    ip_addr := [0xc0, 0xa8, 0x01, 0x02], peers_seen := 1, unknown_35 := 0 }

set_option maxRecDepth 4000 in
/-- C1 counterexample: `encode(decode(bytes)) = bytes` fails on a byte
string the keep-alive parser accepts, because the length field is read
and dropped on parse but rewritten with the fixed value `0x36` on write. -/
theorem c1_control_round_trips_counterexample :
    KeepAlivePacket.parse c1BadLenBytes =
      some (Packet.keepAlive c1BadLenPkt, []) ∧
    KeepAlivePacket.write c1BadLenPkt ≠ c1BadLenBytes := by
  refine ⟨by rfl, by decide⟩

/-- C1 (amended): round trips for the five control packet kinds.
Encode-then-decode: for every value whose name is valid UTF-8, at most 20
bytes, and without a trailing NUL, and whose numeric fields fit their
wire widths (and addresses have wire length), parsing the written bytes
returns the value — except that `AnnouncePacket::parse` leaves the
protocol-version-3 trailing `0x00` unconsumed.  Decode-then-encode:
re-encoding a value parsed from an accepted byte string reproduces the
bytes exactly when the data the parser ignores or collapses is canonical:
the big-endian length field holds the kind's fixed value, the 20-byte
name field is the canonical encoding of the parsed name, and the claim-2
auto-assign byte is one of the two values (`0x01`/`0x02`) the writer can
produce. -/
theorem c1_control_round_trips :
    (∀ p : AnnouncePacket, WfName p.name → p.proto_ver < 256 →
      AnnouncePacket.parse (AnnouncePacket.write p) =
        some (Packet.announce p, if p.proto_ver = 3 then [0x00] else [])) ∧
    (∀ p : DeviceNumClaim1Packet, WfName p.name → p.proto_ver < 256 →
      p.pkt_num < 256 → p.mac_addr.length = 6 →
      DeviceNumClaim1Packet.parse (DeviceNumClaim1Packet.write p) =
        some (Packet.deviceNumClaim1 p, [])) ∧
    (∀ p : DeviceNumClaim2Packet, WfName p.name → p.proto_ver < 256 →
      p.ip_addr.length = 4 → p.mac_addr.length = 6 → p.device_num < 256 →
      p.pkt_num < 256 →
      DeviceNumClaim2Packet.parse (DeviceNumClaim2Packet.write p) =
        some (Packet.deviceNumClaim2 p, [])) ∧
    (∀ p : DeviceNumClaim3Packet, WfName p.name → p.proto_ver < 256 →
      p.device_num < 256 → p.pkt_num < 256 →
      DeviceNumClaim3Packet.parse (DeviceNumClaim3Packet.write p) =
        some (Packet.deviceNumClaim3 p, [])) ∧
    (∀ p : KeepAlivePacket, WfName p.name → p.proto_ver < 256 →
      p.device_num < 256 → p.device_type < 256 → p.mac_addr.length = 6 →
      p.ip_addr.length = 4 → p.peers_seen < 256 → p.unknown_35 < 256 →
      KeepAlivePacket.parse (KeepAlivePacket.write p) =
        some (Packet.keepAlive p, [])) ∧
    (∀ (i : List Nat) (p : AnnouncePacket) (r : List Nat),
      AnnouncePacket.parse i = some (Packet.announce p, r) →
      r = (if p.proto_ver = 3 then [0x00] else []) →
      (∀ b ∈ i, b < 256) →
      (i.drop 12).take 20 = writeDeviceName p.name →
      (i.drop 34).take 2 = [0x00, if p.proto_ver = 3 then 0x26 else 0x25] →
      AnnouncePacket.write p = i) ∧
    (∀ (i : List Nat) (p : DeviceNumClaim1Packet),
      DeviceNumClaim1Packet.parse i = some (Packet.deviceNumClaim1 p, []) →
      (∀ b ∈ i, b < 256) →
      (i.drop 12).take 20 = writeDeviceName p.name →
      (i.drop 34).take 2 = [0x00, 0x2c] →
      DeviceNumClaim1Packet.write p = i) ∧
    (∀ (i : List Nat) (p : DeviceNumClaim2Packet),
      DeviceNumClaim2Packet.parse i = some (Packet.deviceNumClaim2 p, []) →
      (∀ b ∈ i, b < 256) →
      (i.drop 12).take 20 = writeDeviceName p.name →
      (i.drop 34).take 2 = [0x00, 0x32] →
      (i.drop 49 = [0x01] ∨ i.drop 49 = [0x02]) →
      DeviceNumClaim2Packet.write p = i) ∧
    (∀ (i : List Nat) (p : DeviceNumClaim3Packet),
      DeviceNumClaim3Packet.parse i = some (Packet.deviceNumClaim3 p, []) →
      (∀ b ∈ i, b < 256) →
      (i.drop 12).take 20 = writeDeviceName p.name →
      (i.drop 34).take 2 = [0x00, 0x26] →
      DeviceNumClaim3Packet.write p = i) ∧
    (∀ (i : List Nat) (p : KeepAlivePacket),
      KeepAlivePacket.parse i = some (Packet.keepAlive p, []) →
      (∀ b ∈ i, b < 256) →
      (i.drop 12).take 20 = writeDeviceName p.name →
      (i.drop 34).take 2 = [0x00, 0x36] →
      KeepAlivePacket.write p = i) :=
  ⟨announce_write_parse, claim1_write_parse, claim2_write_parse,
    claim3_write_parse, keepAlive_write_parse,
    fun _ _ _ h hr hb hn hl => announce_parse_write h hr hb hn hl,
    fun _ _ h hb hn hl => claim1_parse_write h hb hn hl,
    fun _ _ h hb hn hl ha => claim2_parse_write h hb hn hl ha,
    fun _ _ h hb hn hl => claim3_parse_write h hb hn hl,
    fun _ _ h hb hn hl => keepAlive_parse_write h hb hn hl⟩

def c1A : AnnouncePacket := { name := [0x41], proto_ver := 3 }

def c1D1 : DeviceNumClaim1Packet :=
  { name := [0x42], proto_ver := 2, pkt_num := 1,
    mac_addr := [1, 2, 3, 4, 5, 6] }

def c1D2 : DeviceNumClaim2Packet :=
  { name := [0x43], proto_ver := 2, ip_addr := [10, 0, 0, 1],
    mac_addr := [1, 2, 3, 4, 5, 6], device_num := 2, pkt_num := 1,
    auto_assign := true }

def c1D3 : DeviceNumClaim3Packet :=
  { name := [0x44], proto_ver := 2, device_num := 2, pkt_num := 3 }

/-- The CDJ-3000 keep-alive packet from the repository's own test data. -/
def c1KeepAliveBytes : List Nat :=
  [0x51, 0x73, 0x70, 0x74, 0x31, 0x57, 0x6d, 0x4a, 0x4f, 0x4c, 0x06, 0x00,
   0x43, 0x44, 0x4a, 0x2d, 0x33, 0x30, 0x30, 0x30, 0x00, 0x00, 0x00, 0x00,
   0x00, 0x00, 0x00, 0x00, 0x00, 0x00, 0x00, 0x00, 0x01, 0x03, 0x00, 0x36,
   0x02, 0x01, 0xc8, 0x3d, 0xfc, 0x0b, 0xf5, 0x1f, 0xc0, 0xa8, 0x01, 0xf3,
   0x01, 0x00, 0x00, 0x00, 0x01, 0x24]

def c1KeepAlivePkt : KeepAlivePacket :=
  { name := [0x43, 0x44, 0x4a, 0x2d, 0x33, 0x30, 0x30, 0x30], proto_ver := 3,
    device_num := 2, device_type := 1,
    mac_addr := [0xc8, 0x3d, 0xfc, 0x0b, 0xf5, 0x1f],
    ip_addr := [0xc0, 0xa8, 0x01, 0xf3], peers_seen := 1, unknown_35 := 0x24 }

set_option maxRecDepth 8000 in
/-- C1 witness: every clause applied to concrete packets, including the
CDJ-3000 keep-alive test vector of `proto.rs`. -/
theorem c1_control_round_trips_witness :
    (AnnouncePacket.parse (AnnouncePacket.write c1A) =
      some (Packet.announce c1A, [0x00])) ∧
    (DeviceNumClaim1Packet.parse (DeviceNumClaim1Packet.write c1D1) =
      some (Packet.deviceNumClaim1 c1D1, [])) ∧
    (DeviceNumClaim2Packet.parse (DeviceNumClaim2Packet.write c1D2) =
      some (Packet.deviceNumClaim2 c1D2, [])) ∧
    (DeviceNumClaim3Packet.parse (DeviceNumClaim3Packet.write c1D3) =
      some (Packet.deviceNumClaim3 c1D3, [])) ∧
    (KeepAlivePacket.parse (KeepAlivePacket.write c1KeepAlivePkt) =
      some (Packet.keepAlive c1KeepAlivePkt, [])) ∧
    (AnnouncePacket.write c1A = AnnouncePacket.write c1A) ∧
    (DeviceNumClaim1Packet.write c1D1 = DeviceNumClaim1Packet.write c1D1) ∧
    (DeviceNumClaim2Packet.write c1D2 = DeviceNumClaim2Packet.write c1D2) ∧
    (DeviceNumClaim3Packet.write c1D3 = DeviceNumClaim3Packet.write c1D3) ∧
    (KeepAlivePacket.write c1KeepAlivePkt = c1KeepAliveBytes) :=
  ⟨c1_control_round_trips.1 c1A ⟨by decide, by decide, by decide⟩ (by decide),
   c1_control_round_trips.2.1 c1D1 ⟨by decide, by decide, by decide⟩ (by decide) (by decide)
     (by decide),
   c1_control_round_trips.2.2.1 c1D2 ⟨by decide, by decide, by decide⟩ (by decide) (by decide)
     (by decide) (by decide) (by decide),
   c1_control_round_trips.2.2.2.1 c1D3 ⟨by decide, by decide, by decide⟩ (by decide) (by decide)
     (by decide),
   c1_control_round_trips.2.2.2.2.1 c1KeepAlivePkt ⟨by decide, by decide, by decide⟩ (by decide)
     (by decide) (by decide) (by decide) (by decide) (by decide) (by decide),
   c1_control_round_trips.2.2.2.2.2.1 (AnnouncePacket.write c1A) c1A [0x00]
     (by decide) (by decide) (by decide) (by decide) (by decide),
   c1_control_round_trips.2.2.2.2.2.2.1 (DeviceNumClaim1Packet.write c1D1)
     c1D1 (by decide) (by decide) (by decide) (by decide),
   c1_control_round_trips.2.2.2.2.2.2.2.1 (DeviceNumClaim2Packet.write c1D2)
     c1D2 (by decide) (by decide) (by decide) (by decide)
     (Or.inl (by decide)),
   c1_control_round_trips.2.2.2.2.2.2.2.2.1 (DeviceNumClaim3Packet.write c1D3)
     c1D3 (by decide) (by decide) (by decide) (by decide),
   c1_control_round_trips.2.2.2.2.2.2.2.2.2 c1KeepAliveBytes c1KeepAlivePkt
     (by decide) (by decide) (by decide) (by decide)⟩

/-! ## Claim C9: the 20-byte device-name field -/

/-- C9: when serializing any broadcast packet, the device-name field is
always exactly 20 bytes, placed verbatim at offset 12 of the header; a
name shorter than 20 bytes is NUL-padded, and a name whose UTF-8
encoding exceeds 20 bytes is silently truncated to its first 20 bytes
(the slice writer reports no error). -/
theorem c9_device_name_always_20_bytes :
    (∀ name : List Nat, (writeDeviceName name).length = 20) ∧
    (∀ pktType name protoVer pktLen,
      ((writeHeader pktType name protoVer pktLen).drop 12).take 20 =
        writeDeviceName name) ∧
    (∀ name : List Nat, name.length ≤ 20 →
      writeDeviceName name = name ++ List.replicate (20 - name.length) 0) ∧
    (∀ name : List Nat, 20 ≤ name.length → writeDeviceName name = name.take 20) := by
  refine ⟨writeDeviceName_length, ?_, @writeDeviceName_of_le, @writeDeviceName_of_ge⟩
  intro pktType name protoVer pktLen
  rw [writeHeader, show HEADERc ++ w8 pktType ++ w8 0x00 ++ writeDeviceName name ++
      w8 0x01 ++ w8 protoVer ++ w16be pktLen =
      (HEADERc ++ w8 pktType ++ w8 0x00) ++ (writeDeviceName name ++
        (w8 0x01 ++ w8 protoVer ++ w16be pktLen)) by simp [List.append_assoc]]
  rw [List.drop_left' (by simp [HEADERc, w8]), List.take_left' (writeDeviceName_length name)]

/-- C9 witness: a 25-byte name is truncated to its first 20 bytes. -/
theorem c9_device_name_always_20_bytes_witness :
    writeDeviceName (List.replicate 25 0x41) = (List.replicate 25 0x41).take 20 :=
  c9_device_name_always_20_bytes.2.2.2 _ (by decide)

/-! ## Claim C10: the XDR linked-list decoders -/

/-- C10: both `mount_list_to_vec` and `dir_list_to_vec` convert entries
to UTF-16LE-decoded strings in wire order, and an entry with an odd byte
length silently drops that entry and every later one. -/
theorem c10_odd_entry_truncates_list (entries : List (List Nat)) :
    mountListToVec entries =
      (entries.takeWhile fun e => e.length % 2 == 0).map
        (fun e => utf8Encode (utf16LossyDecode (leU16Chunks e))) ∧
    dirListToVec entries =
      (entries.takeWhile fun e => e.length % 2 == 0).map
        (fun e => utf8Encode (utf16LossyDecode (leU16Chunks e))) := by
  induction entries with
  | nil => exact ⟨rfl, rfl⟩
  | cons e rest ih =>
    by_cases h : e.length % 2 = 0
    · simp [mountListToVec, dirListToVec, List.takeWhile_cons, h, ih.1, ih.2]
    · simp [mountListToVec, dirListToVec, List.takeWhile_cons, h]

/-! ## Claim C6: Track equality -/

/-- Two tracks agreeing on the five identifying fields, differing only
in the artwork option. -/
def c6TrackL : Track :=
  { player_device := 2, track_device := 2, track_slot := 3, track_type := 1,
    rekordbox_id := 0x73, metadata := none, artwork := none }

def c6TrackR : Track :=
  { player_device := 2, track_device := 2, track_slot := 3, track_type := 1,
    rekordbox_id := 0x73, metadata := none, artwork := some [] }

def c6TrackQ : Track :=
  { player_device := 2, track_device := 2, track_slot := 3, track_type := 1,
    rekordbox_id := 0x74, metadata := none, artwork := none }

/-- C6 counterexample: `Track` derives `PartialEq`, so equality compares
all seven fields; these two tracks agree on the five identifying fields
and differ only in artwork, yet they are not equal. -/
theorem c6_track_equality_counterexample :
    c6TrackL.player_device = c6TrackR.player_device ∧
    c6TrackL.track_device = c6TrackR.track_device ∧
    c6TrackL.track_slot = c6TrackR.track_slot ∧
    c6TrackL.track_type = c6TrackR.track_type ∧
    c6TrackL.rekordbox_id = c6TrackR.rekordbox_id ∧
    c6TrackL ≠ c6TrackR := by
  refine ⟨rfl, rfl, rfl, rfl, rfl, ?_⟩
  intro h
  cases h

/-- C6 amended: `Track` equality is structural over all seven fields;
restricted to values whose metadata and artwork are both `None` (the only
shape the status task ever compares), it coincides with equality of the
five identifying fields. -/
theorem c6_track_equality_amended (a b : Track) (hma : a.metadata = none)
    (hmb : b.metadata = none) (haa : a.artwork = none) (hab : b.artwork = none) :
    a = b ↔ a.player_device = b.player_device ∧ a.track_device = b.track_device ∧
      a.track_slot = b.track_slot ∧ a.track_type = b.track_type ∧
      a.rekordbox_id = b.rekordbox_id := by
  cases a
  cases b
  simp_all [Track.mk.injEq]

/-- C6 witness: the amended equivalence applied to two concrete tracks
differing in the rekordbox id. -/
theorem c6_track_equality_amended_witness :
    c6TrackL = c6TrackQ ↔ c6TrackL.player_device = c6TrackQ.player_device ∧
      c6TrackL.track_device = c6TrackQ.track_device ∧
      c6TrackL.track_slot = c6TrackQ.track_slot ∧
      c6TrackL.track_type = c6TrackQ.track_type ∧
      c6TrackL.rekordbox_id = c6TrackQ.rekordbox_id :=
  c6_track_equality_amended c6TrackL c6TrackQ rfl rfl rfl rfl

/-! ## Claim C2: totality of Packet::parse -/

/-- C2: `Packet::parse_impl` indexes `data[0xb]` without a bounds check
in the `AnnounceStatus` arm.  The 11-byte input made of the 10-byte magic
followed by the type byte `0x0a` reaches that index and panics, so
`Packet::parse` is not total: this input produces a panic instead of a
structured `ParseError`. -/
theorem c2_parse_panics_on_short_status_packet :
    Packet.parse (HEADERc ++ [0x0a]) = RustOutcome.panics := rfl

/-! ## Claim C5: process_timeouts -/

theorem removeEmit_cons_notmem {ids : List Nat} {k : Nat} {v : Peer}
    {peers : List (Nat × Peer)} (h : k ∉ ids) :
    removeEmit ids ((k, v) :: peers) =
      ((k, v) :: (removeEmit ids peers).1,
        (removeEmit ids peers).2.1, (removeEmit ids peers).2.2) := by
  induction ids generalizing peers with
  | nil => rfl
  | cons id rest ih =>
    have hne : ¬ k = id := fun he => h (by simp [he])
    have hrest : k ∉ rest := fun hm => h (by simp [hm])
    simp only [removeEmit, alGet, if_neg hne]
    cases hget : alGet id peers with
    | some peer =>
      simp only [alRemove, if_neg hne, ih hrest]
    | none => exact ih hrest

/-- C5: for every peer table (with the `HashMap` key-uniqueness
invariant) and every current instant, `process_timeouts` retains exactly
the peers whose `last_seen` is at most ten seconds old, and emits, in
table order, exactly one `PeerLeft` message and one `PeerEvent::Left`
broadcast for each removed peer and none for any retained peer. -/
theorem c5_process_timeouts_exact (now : Nat) (peers : List (Nat × Peer))
    (hnd : (peers.map Prod.fst).Nodup) :
    processTimeouts now peers =
      (peers.filter (fun p => !timedOut now p.2),
       (peers.filter (fun p => timedOut now p.2)).map
         (fun p => Message.peerLeft { name := p.2.name, device_num := p.2.device_num }),
       (peers.filter (fun p => timedOut now p.2)).map
         (fun p => PeerEvent.left p.2)) := by
  induction peers with
  | nil => rfl
  | cons p rest ih =>
    obtain ⟨k, v⟩ := p
    rw [List.map_cons, List.nodup_cons] at hnd
    obtain ⟨hk, hnd2⟩ := hnd
    have ihr := ih hnd2
    simp only [processTimeouts] at ihr ⊢
    by_cases ht : timedOut now v
    · have hfT : List.filter (fun p => timedOut now p.2) ((k, v) :: rest) =
          (k, v) :: List.filter (fun p => timedOut now p.2) rest := by
        simp [List.filter_cons, ht]
      have hfF : List.filter (fun p => !timedOut now p.2) ((k, v) :: rest) =
          List.filter (fun p => !timedOut now p.2) rest := by
        simp [List.filter_cons, ht]
      rw [hfT, hfF, List.map_cons]
      simp only [removeEmit, alGet, alRemove, eq_self_iff_true, if_true, ihr,
        List.map_cons]
    · have hknot : k ∉ (List.filter (fun p => timedOut now p.2) rest).map
          (fun x => x.1) := by
        intro hm
        obtain ⟨q, hq, hqe⟩ := List.mem_map.mp hm
        exact hk (List.mem_map.mpr ⟨q, List.mem_of_mem_filter hq, hqe⟩)
      have hfT : List.filter (fun p => timedOut now p.2) ((k, v) :: rest) =
          List.filter (fun p => timedOut now p.2) rest := by
        simp [List.filter_cons, ht]
      have hfF : List.filter (fun p => !timedOut now p.2) ((k, v) :: rest) =
          (k, v) :: List.filter (fun p => !timedOut now p.2) rest := by
        simp [List.filter_cons, ht]
      rw [hfT, hfF, removeEmit_cons_notmem hknot, ihr]

def c5PeerStale : Peer :=
  { name := [0x41], device_num := 2, mac_addr := [0, 0, 0, 0, 0, 0],
    ip_addr := [192, 168, 1, 2], proto_ver := 3, last_seen := 0 }

def c5PeerFresh : Peer :=
  { name := [0x42], device_num := 3, mac_addr := [0, 0, 0, 0, 0, 1],
    ip_addr := [192, 168, 1, 3], proto_ver := 2, last_seen := 20000 }

/-- C5 witness: at instant 20000 ms, the peer last seen at 0 ms is
removed with exactly one `PeerLeft` on each channel, and the fresh peer
is retained with none. -/
theorem c5_process_timeouts_exact_witness :
    processTimeouts 20000 [(2, c5PeerStale), (3, c5PeerFresh)] =
      ([(3, c5PeerFresh)],
       [Message.peerLeft { name := [0x41], device_num := 2 }],
       [PeerEvent.left c5PeerStale]) := by
  have h := c5_process_timeouts_exact 20000 [(2, c5PeerStale), (3, c5PeerFresh)]
    (by decide)
  rw [h]
  rfl

/-! ## Claim C7: the three-way PDB string discriminator -/

/-- C7: `Database::parse_string` discriminates on the first byte: `0x90`
with `data[4] == 3` reads an ASCII payload `data[5 .. len-1]` with `len`
the little-endian u16 at offset 1; an even first byte reads a UTF-16LE
payload `data[4 .. len]`; an odd first byte reads an ASCII payload
`data[1 .. len]` with `len = flags >> 1`; and a length below the
respective minimum (6, 5, 2) yields the empty string.  The side
conditions keep the input long enough for the payload slices and the
payload well-formed for the strict string conversions. -/
theorem c7_parse_string_branches (data : List Nat) (flags : Nat)
    (hhead : data.head? = some flags) :
    ((flags = 0x90 ∧ 4 < data.length ∧ data.getD 4 0 = 0x3) →
      (leU16At data 1 < 6 → parseString data = .returns (.ok [])) ∧
      (∀ len, len = leU16At data 1 → 6 ≤ len → len - 1 ≤ data.length →
        utf8ValidB ((data.drop 5).take (len - 1 - 5)) = true →
        parseString data = .returns (.ok ((data.drop 5).take (len - 1 - 5))))) ∧
    (¬ (flags = 0x90 ∧ 4 < data.length ∧ data.getD 4 0 = 0x3) →
      flags % 2 = 0 → 3 ≤ data.length →
      (leU16At data 1 < 5 → parseString data = .returns (.ok [])) ∧
      (∀ len cs, len = leU16At data 1 → 5 ≤ len → len % 2 = 0 →
        len ≤ data.length →
        utf16Decode (leU16Chunks ((data.drop 4).take (len - 4))) = some cs →
        parseString data = .returns (.ok (utf8Encode cs)))) ∧
    (flags % 2 = 1 →
      (flags / 2 < 2 → parseString data = .returns (.ok [])) ∧
      (2 ≤ flags / 2 → flags / 2 ≤ data.length →
        utf8ValidB ((data.drop 1).take (flags / 2 - 1)) = true →
        parseString data = .returns (.ok ((data.drop 1).take (flags / 2 - 1))))) := by
  cases data with
  | nil => cases hhead
  | cons f rest =>
    have hf : f = flags := by simpa using hhead
    subst hf
    refine ⟨?_, ?_, ?_⟩
    · intro hc
      constructor
      · intro hlt
        simp only [parseString, if_pos hc, if_pos hlt]
      · intro len hlen h6 hle hval
        subst hlen
        simp only [parseString, if_pos hc, if_neg (by omega : ¬ leU16At (f :: rest) 1 < 6),
          if_neg (by omega : ¬ (f :: rest).length < leU16At (f :: rest) 1 - 1),
          if_pos hval]
    · intro hnc heven h3
      constructor
      · intro hlt
        simp only [parseString, if_neg hnc, if_pos heven,
          if_neg (by omega : ¬ (f :: rest).length < 3), if_pos hlt]
      · intro len cs hlen h5 hev hle hdec
        subst hlen
        simp only [parseString, if_neg hnc, if_pos heven,
          if_neg (by omega : ¬ (f :: rest).length < 3),
          if_neg (by omega : ¬ leU16At (f :: rest) 1 < 5),
          if_neg (by omega : ¬ leU16At (f :: rest) 1 % 2 ≠ 0),
          if_neg (by omega : ¬ (f :: rest).length < leU16At (f :: rest) 1),
          hdec]
    · intro hodd
      have hnc : ¬ (f = 0x90 ∧ 4 < (f :: rest).length ∧
          (f :: rest).getD 4 0 = 0x3) := by
        rintro ⟨h90, -, -⟩
        omega
      have hne : ¬ f % 2 = 0 := by omega
      constructor
      · intro hlt
        simp only [parseString, if_neg hnc, if_neg hne, if_pos hlt]
      · intro h2 hle hval
        simp only [parseString, if_neg hnc, if_neg hne,
          if_neg (by omega : ¬ f / 2 < 2),
          if_neg (by omega : ¬ (f :: rest).length < f / 2), if_pos hval]

/-- C7 witness: one concrete input per branch, plus a minimum-length
guard. -/
theorem c7_parse_string_branches_witness :
    parseString [0x90, 0x09, 0x00, 0x00, 0x03, 0x41, 0x42, 0x43, 0x00] =
      .returns (.ok [0x41, 0x42, 0x43]) ∧
    parseString [0x90, 0x05, 0x00, 0x00, 0x03] = .returns (.ok []) ∧
    parseString [0x02, 0x08, 0x00, 0x00, 0x41, 0x00, 0x42, 0x00] =
      .returns (.ok [0x41, 0x42]) ∧
    parseString [0x07, 0x41, 0x42, 0x43] = .returns (.ok [0x41, 0x42]) := by
  refine ⟨?_, ?_, ?_, ?_⟩
  · have h := ((c7_parse_string_branches
      [0x90, 0x09, 0x00, 0x00, 0x03, 0x41, 0x42, 0x43, 0x00] 0x90 rfl).1
      (by decide)).2 9 (by decide) (by decide) (by decide) (by decide)
    simpa using h
  · exact ((c7_parse_string_branches [0x90, 0x05, 0x00, 0x00, 0x03] 0x90 rfl).1
      (by decide)).1 (by decide)
  · have h := ((c7_parse_string_branches
      [0x02, 0x08, 0x00, 0x00, 0x41, 0x00, 0x42, 0x00] 0x02 rfl).2.1
      (by decide) (by decide) (by decide)).2 8 [0x41, 0x42] (by decide)
      (by decide) (by decide) (by decide) (by decide)
    simpa using h
  · have h := ((c7_parse_string_branches [0x07, 0x41, 0x42, 0x43] 0x07
      rfl).2.2 (by decide)).2 (by decide) (by decide) (by decide)
    simpa using h

/-! ## Claim C3: unknown player types -/

/-- Byte string of a PlayerStatus packet: the 0xd0-byte fixed preamble
(each non-constant byte a parameter, the length field included) followed
by `trailer`.  The appends are right-nested so each parser step sees its
input segment at the head. -/
def c3StatusBytes (nf1 : Nat) (nfr : List Nat)
    (u10 dn l1 l2 dn2 u16f act td ts tt r3 r2 r1 r0 tn1 tn0 dl : Nat)
    (u38 : List Nat) (dnh dnl : Nat) (u48 : List Nat)
    (usb sd ul sl la u78 pm : Nat) (fw : List Nat)
    (sn3 sn2 sn1 sn0 fl u8b psb p13 p12 p11 p10 mv1 mv0 bp1 bp0 u943 u942 u941 u940 p23 p22 p21 p20 p3v mmv mhv bt3 bt2 bt1 bt0 cu1 cu0 bbv mpr ue se el q33 q32 q31 q30 q43 q42 q41 q40 sq3 sq2 sq1 sq0 pt : Nat)
    (ucd : List Nat) (trailer : List Nat) : List Nat :=
  HEADERc ++
    (0x0a :: ((nf1 :: nfr) ++
    (0x01 :: u10 :: dn :: l1 :: l2 :: dn2 :: 0x00 :: u16f :: act :: td :: ts :: tt :: 0x00 :: r3 :: r2 :: r1 :: r0 :: 0x00 :: 0x00 :: tn1 :: tn0 :: 0x00 :: 0x00 :: 0x00 :: dl ::
    (u38 ++ (dnh :: dnl ::
    (u48 ++
    (0x01 :: 0x00 :: usb :: sd :: 0x00 :: 0x00 :: 0x00 :: ul :: 0x00 :: 0x00 :: 0x00 :: sl :: 0x00 :: la :: 0x00 :: 0x00 :: u78 :: 0x00 :: 0x00 :: pm ::
    (fw ++
    (0x00 :: 0x00 :: 0x00 :: 0x00 :: sn3 :: sn2 :: sn1 :: sn0 :: 0x00 :: fl :: u8b :: psb :: p13 :: p12 :: p11 :: p10 :: mv1 :: mv0 :: bp1 :: bp0 :: u943 :: u942 :: u941 :: u940 :: p23 :: p22 :: p21 :: p20 :: 0x00 :: p3v :: mmv :: mhv :: bt3 :: bt2 :: bt1 :: bt0 :: cu1 :: cu0 :: bbv :: 0x00 :: 0x00 :: 0x00 :: 0x00 :: 0x00 :: 0x00 :: 0x00 :: 0x00 :: 0x00 :: 0x00 :: 0x00 :: 0x00 :: 0x00 :: 0x00 :: 0x00 :: 0x01 :: mpr :: ue :: se :: el :: 0x00 :: 0x00 :: 0x00 :: 0x00 :: 0x00 :: q33 :: q32 :: q31 :: q30 :: q43 :: q42 :: q41 :: q40 :: sq3 :: sq2 :: sq1 :: sq0 :: pt ::
    (ucd ++ trailer))))))))))

/-- The value `PlayerStatusPacket::parse` produces for `c3StatusBytes`
when the player type selects no trailer. -/
def c3StatusPacket (nf1 : Nat) (nfr : List Nat)
    (u10 dn l1 l2 dn2 u16f act td ts tt r3 r2 r1 r0 tn1 tn0 dl : Nat)
    (u38 : List Nat) (dnh dnl : Nat) (u48 : List Nat)
    (usb sd ul sl la u78 pm : Nat) (fw : List Nat)
    (sn3 sn2 sn1 sn0 fl u8b psb p13 p12 p11 p10 mv1 mv0 bp1 bp0 u943 u942 u941 u940 p23 p22 p21 p20 p3v mmv mhv bt3 bt2 bt1 bt0 cu1 cu0 bbv mpr ue se el q33 q32 q31 q30 q43 q42 q41 q40 sq3 sq2 sq1 sq0 pt : Nat)
    (ucd : List Nat) : PlayerStatusPacket :=
  { name := deviceName (nf1 :: nfr), unknown_10 := u10, device_num := dn,
    unknown_16 := u16f, active := act, track_device := td,
    track_slot := ts, track_type := tt,
    rekordbox_id := ((r3 * 256 + r2) * 256 + r1) * 256 + r0,
    track_num := tn1 * 256 + tn0, d_l := dl, unknown_38 := u38,
    d_n := dnh * 256 + dnl, unknown_48 := u48, usb_activity := usb,
    sd_activity := sd, u_l := ul, s_l := sl, link_available := la,
    unknown_78 := u78, play_mode := pm,
    firmware_ver := trimEndZeros (utf8Lossy fw),
    sync_n := ((sn3 * 256 + sn2) * 256 + sn1) * 256 + sn0, flags := fl,
    unknown_8b := u8b, play_state := psb,
    pitch_1 := ((p13 * 256 + p12) * 256 + p11) * 256 + p10, m_v := mv1 * 256 + mv0,
    bpm := bp1 * 256 + bp0, unknown_94 := ((u943 * 256 + u942) * 256 + u941) * 256 + u940,
    pitch_2 := ((p23 * 256 + p22) * 256 + p21) * 256 + p20, p_3 := p3v, m_m := mmv,
    m_h := mhv, beat := ((bt3 * 256 + bt2) * 256 + bt1) * 256 + bt0, cue := cu1 * 256 + cu0,
    bar_beat := bbv, media_presence := mpr, u_e := ue, s_e := se,
    emergency_loop_active := el, pitch_3 := ((q33 * 256 + q32) * 256 + q31) * 256 + q30,
    pitch_4 := ((q43 * 256 + q42) * 256 + q41) * 256 + q40,
    seq_num := ((sq3 * 256 + sq2) * 256 + sq1) * 256 + sq0, player_type := pt,
    unknown_cd := ucd, extra0 := none }

/-- C3 amended: a PlayerStatus packet whose player-type byte (offset
0xcc) is neither 0x05 nor 0x1f parses to the common preamble fields with
`extra0 = None`; `Packet::parse` on the full packet succeeds exactly when
the packet ends at the 0xd0-byte preamble, and any trailing bytes make it
return the `packet has extra data` error instead of succeeding. -/
theorem c3_unknown_player_type_amended (nf1 : Nat) (nfr : List Nat)
    (u10 dn l1 l2 dn2 u16f act td ts tt r3 r2 r1 r0 tn1 tn0 dl : Nat)
    (u38 : List Nat) (dnh dnl : Nat) (u48 : List Nat)
    (usb sd ul sl la u78 pm : Nat) (fw : List Nat)
    (sn3 sn2 sn1 sn0 fl u8b psb p13 p12 p11 p10 mv1 mv0 bp1 bp0 u943 u942 u941 u940 p23 p22 p21 p20 p3v mmv mhv bt3 bt2 bt1 bt0 cu1 cu0 bbv mpr ue se el q33 q32 q31 q30 q43 q42 q41 q40 sq3 sq2 sq1 sq0 pt : Nat)
    (ucd : List Nat)
    (trailer : List Nat)
    (hnf : nfr.length = 19) (hnz : nf1 ≠ 0)
    (h38 : u38.length = 14) (h48 : u48.length = 32) (hfw : fw.length = 4)
    (hucd : ucd.length = 3) (hpt5 : pt ≠ 0x05) (hpt1f : pt ≠ 0x1f) :
    PlayerStatusPacket.parse (c3StatusBytes nf1 nfr u10 dn l1 l2 dn2 u16f act td ts tt r3 r2 r1 r0 tn1 tn0 dl u38 dnh dnl u48 usb sd ul sl la u78 pm fw sn3 sn2 sn1 sn0 fl u8b psb p13 p12 p11 p10 mv1 mv0 bp1 bp0 u943 u942 u941 u940 p23 p22 p21 p20 p3v mmv mhv bt3 bt2 bt1 bt0 cu1 cu0 bbv mpr ue se el q33 q32 q31 q30 q43 q42 q41 q40 sq3 sq2 sq1 sq0 pt ucd trailer) =
      some (Packet.playerStatus (c3StatusPacket nf1 nfr u10 dn l1 l2 dn2 u16f act td ts tt r3 r2 r1 r0 tn1 tn0 dl u38 dnh dnl u48 usb sd ul sl la u78 pm fw sn3 sn2 sn1 sn0 fl u8b psb p13 p12 p11 p10 mv1 mv0 bp1 bp0 u943 u942 u941 u940 p23 p22 p21 p20 p3v mmv mhv bt3 bt2 bt1 bt0 cu1 cu0 bbv mpr ue se el q33 q32 q31 q30 q43 q42 q41 q40 sq3 sq2 sq1 sq0 pt ucd), trailer) ∧
    (trailer = [] →
      Packet.parse (c3StatusBytes nf1 nfr u10 dn l1 l2 dn2 u16f act td ts tt r3 r2 r1 r0 tn1 tn0 dl u38 dnh dnl u48 usb sd ul sl la u78 pm fw sn3 sn2 sn1 sn0 fl u8b psb p13 p12 p11 p10 mv1 mv0 bp1 bp0 u943 u942 u941 u940 p23 p22 p21 p20 p3v mmv mhv bt3 bt2 bt1 bt0 cu1 cu0 bbv mpr ue se el q33 q32 q31 q30 q43 q42 q41 q40 sq3 sq2 sq1 sq0 pt ucd trailer) =
        .returns (.ok (Packet.playerStatus (c3StatusPacket nf1 nfr u10 dn l1 l2 dn2 u16f act td ts tt r3 r2 r1 r0 tn1 tn0 dl u38 dnh dnl u48 usb sd ul sl la u78 pm fw sn3 sn2 sn1 sn0 fl u8b psb p13 p12 p11 p10 mv1 mv0 bp1 bp0 u943 u942 u941 u940 p23 p22 p21 p20 p3v mmv mhv bt3 bt2 bt1 bt0 cu1 cu0 bbv mpr ue se el q33 q32 q31 q30 q43 q42 q41 q40 sq3 sq2 sq1 sq0 pt ucd)))) ∧
    (trailer ≠ [] →
      Packet.parse (c3StatusBytes nf1 nfr u10 dn l1 l2 dn2 u16f act td ts tt r3 r2 r1 r0 tn1 tn0 dl u38 dnh dnl u48 usb sd ul sl la u78 pm fw sn3 sn2 sn1 sn0 fl u8b psb p13 p12 p11 p10 mv1 mv0 bp1 bp0 u943 u942 u941 u940 p23 p22 p21 p20 p3v mmv mhv bt3 bt2 bt1 bt0 cu1 cu0 bbv mpr ue se el q33 q32 q31 q30 q43 q42 q41 q40 sq3 sq2 sq1 sq0 pt ucd trailer) =
        .returns (.error (.extraData trailer.length))) := by
  have h20 : (nf1 :: nfr).length = 20 := by simp [hnf]
  have hvariant : PlayerStatusPacket.parse (c3StatusBytes nf1 nfr u10 dn l1 l2 dn2 u16f act td ts tt r3 r2 r1 r0 tn1 tn0 dl u38 dnh dnl u48 usb sd ul sl la u78 pm fw sn3 sn2 sn1 sn0 fl u8b psb p13 p12 p11 p10 mv1 mv0 bp1 bp0 u943 u942 u941 u940 p23 p22 p21 p20 p3v mmv mhv bt3 bt2 bt1 bt0 cu1 cu0 bbv mpr ue se el q33 q32 q31 q30 q43 q42 q41 q40 sq3 sq2 sq1 sq0 pt ucd trailer) =
      some (Packet.playerStatus (c3StatusPacket nf1 nfr u10 dn l1 l2 dn2 u16f act td ts tt r3 r2 r1 r0 tn1 tn0 dl u38 dnh dnl u48 usb sd ul sl la u78 pm fw sn3 sn2 sn1 sn0 fl u8b psb p13 p12 p11 p10 mv1 mv0 bp1 bp0 u943 u942 u941 u940 p23 p22 p21 p20 p3v mmv mhv bt3 bt2 bt1 bt0 cu1 cu0 bbv mpr ue se el q33 q32 q31 q30 q43 q42 q41 q40 sq3 sq2 sq1 sq0 pt ucd), trailer) := by
    simp only [c3StatusBytes, c3StatusPacket, PlayerStatusPacket.parse, headerP,
      deviceNameP, pTag_self_append, pTag, pU8, pU16, pU32,
      pTake_of_length h20, pTake_of_length h38, pTake_of_length h48,
      pTake_of_length hfw, pTake_of_length hucd, parseExtra0,
      if_neg hpt5, if_neg hpt1f, if_true, eq_self_iff_true]
  obtain ⟨t, ht⟩ : ∃ t, c3StatusBytes nf1 nfr u10 dn l1 l2 dn2 u16f act td ts tt r3 r2 r1 r0 tn1 tn0 dl u38 dnh dnl u48 usb sd ul sl la u78 pm fw sn3 sn2 sn1 sn0 fl u8b psb p13 p12 p11 p10 mv1 mv0 bp1 bp0 u943 u942 u941 u940 p23 p22 p21 p20 p3v mmv mhv bt3 bt2 bt1 bt0 cu1 cu0 bbv mpr ue se el q33 q32 q31 q30 q43 q42 q41 q40 sq3 sq2 sq1 sq0 pt ucd trailer =
      HEADERc ++ 0x0a :: nf1 :: t := ⟨_, rfl⟩
  have hvariant2 := hvariant
  rw [ht] at hvariant2
  have h11 : (HEADERc ++ 0x0a :: nf1 :: t)[(0xb : Nat)]? = some nf1 := by
    rw [List.getElem?_append_right (by simp [HEADERc])]
    rw [show (0xb : Nat) - HEADERc.length = 1 from by simp [HEADERc]]
    simp
  have hh : (headerP (HEADERc ++ 0x0a :: nf1 :: t)).bind pU8 =
      some (0x0a, nf1 :: t) := by
    rw [headerP, pTag_self_append]
    rfl
  have himpl : Packet.parseImpl (HEADERc ++ 0x0a :: nf1 :: t) =
      .returns (PlayerStatusPacket.parse (HEADERc ++ 0x0a :: nf1 :: t)) := by
    rw [Packet.parseImpl, hh]
    dsimp only
    rw [if_neg (by decide : ¬ (0x0a : Nat) = 0x00),
      if_neg (by decide : ¬ (0x0a : Nat) = 0x02),
      if_neg (by decide : ¬ (0x0a : Nat) = 0x04),
      if_neg (by decide : ¬ (0x0a : Nat) = 0x06),
      if_pos (rfl : (0x0a : Nat) = 0x0a), h11]
    dsimp only
    rw [if_neg hnz]
  refine ⟨hvariant, ?_, ?_⟩
  · intro htr
    rw [ht, Packet.parse, himpl, hvariant2]
    subst htr
    rfl
  · intro htr
    rw [ht, Packet.parse, himpl, hvariant2]
    dsimp only
    rw [if_neg (by simp [List.isEmpty_iff, htr])]

set_option maxRecDepth 4000 in
/-- C3 counterexample: a concrete PlayerStatus packet whose player-type
byte is 0x06 and which carries one byte after the 0xd0-byte preamble.
`PlayerStatusPacket::parse` stops at the preamble (no trailer form is
known for this player type), so `Packet::parse` rejects the full packet
with the `packet has extra data` error instead of succeeding. -/
theorem c3_unknown_player_type_counterexample :
    Packet.parse (c3StatusBytes 0x43 (List.replicate 19 0) 0x06 0x02 0x00 0xd1 0x02 0x00 0x00 0x02 0x03 0x01 0x00 0x00 0x00 0x73 0x00 0x01 0x02 (List.replicate 14 0) 0x00 0x02 (List.replicate 32 0) 0x04 0x04 0x00 0x04 0x00 0x00 0x05 [0x31, 0x2e, 0x32, 0x30] 0x00 0x00 0x00 0x01 0x00 0x00 0x6e 0x00 0x10 0x00 0x00 0x80 0x00 0x30 0x70 0x7f 0xff 0xff 0xff 0x00 0x00 0x00 0x00 0x01 0x00 0x00 0x00 0x00 0x00 0x3f 0x01 0xff 0x00 0x00 0x00 0x00 0x00 0x00 0x10 0x00 0x00 0x00 0x10 0x00 0x00 0x00 0x00 0x05 0xea 0x06 (List.replicate 3 0) [0x00]) =
      .returns (.error (.extraData 1)) := by
  rfl

/-- C3 witness: the same preamble with no trailer bytes parses to the
common fields with `extra0 = None` and `Packet::parse` succeeds. -/
theorem c3_unknown_player_type_amended_witness :
    PlayerStatusPacket.parse (c3StatusBytes 0x43 (List.replicate 19 0) 0x06 0x02 0x00 0xd1 0x02 0x00 0x00 0x02 0x03 0x01 0x00 0x00 0x00 0x73 0x00 0x01 0x02 (List.replicate 14 0) 0x00 0x02 (List.replicate 32 0) 0x04 0x04 0x00 0x04 0x00 0x00 0x05 [0x31, 0x2e, 0x32, 0x30] 0x00 0x00 0x00 0x01 0x00 0x00 0x6e 0x00 0x10 0x00 0x00 0x80 0x00 0x30 0x70 0x7f 0xff 0xff 0xff 0x00 0x00 0x00 0x00 0x01 0x00 0x00 0x00 0x00 0x00 0x3f 0x01 0xff 0x00 0x00 0x00 0x00 0x00 0x00 0x10 0x00 0x00 0x00 0x10 0x00 0x00 0x00 0x00 0x05 0xea 0x06 (List.replicate 3 0) []) =
      some (Packet.playerStatus (c3StatusPacket 0x43 (List.replicate 19 0) 0x06 0x02 0x00 0xd1 0x02 0x00 0x00 0x02 0x03 0x01 0x00 0x00 0x00 0x73 0x00 0x01 0x02 (List.replicate 14 0) 0x00 0x02 (List.replicate 32 0) 0x04 0x04 0x00 0x04 0x00 0x00 0x05 [0x31, 0x2e, 0x32, 0x30] 0x00 0x00 0x00 0x01 0x00 0x00 0x6e 0x00 0x10 0x00 0x00 0x80 0x00 0x30 0x70 0x7f 0xff 0xff 0xff 0x00 0x00 0x00 0x00 0x01 0x00 0x00 0x00 0x00 0x00 0x3f 0x01 0xff 0x00 0x00 0x00 0x00 0x00 0x00 0x10 0x00 0x00 0x00 0x10 0x00 0x00 0x00 0x00 0x05 0xea 0x06 (List.replicate 3 0)), []) ∧
    Packet.parse (c3StatusBytes 0x43 (List.replicate 19 0) 0x06 0x02 0x00 0xd1 0x02 0x00 0x00 0x02 0x03 0x01 0x00 0x00 0x00 0x73 0x00 0x01 0x02 (List.replicate 14 0) 0x00 0x02 (List.replicate 32 0) 0x04 0x04 0x00 0x04 0x00 0x00 0x05 [0x31, 0x2e, 0x32, 0x30] 0x00 0x00 0x00 0x01 0x00 0x00 0x6e 0x00 0x10 0x00 0x00 0x80 0x00 0x30 0x70 0x7f 0xff 0xff 0xff 0x00 0x00 0x00 0x00 0x01 0x00 0x00 0x00 0x00 0x00 0x3f 0x01 0xff 0x00 0x00 0x00 0x00 0x00 0x00 0x10 0x00 0x00 0x00 0x10 0x00 0x00 0x00 0x00 0x05 0xea 0x06 (List.replicate 3 0) []) =
      .returns (.ok (Packet.playerStatus (c3StatusPacket 0x43 (List.replicate 19 0) 0x06 0x02 0x00 0xd1 0x02 0x00 0x00 0x02 0x03 0x01 0x00 0x00 0x00 0x73 0x00 0x01 0x02 (List.replicate 14 0) 0x00 0x02 (List.replicate 32 0) 0x04 0x04 0x00 0x04 0x00 0x00 0x05 [0x31, 0x2e, 0x32, 0x30] 0x00 0x00 0x00 0x01 0x00 0x00 0x6e 0x00 0x10 0x00 0x00 0x80 0x00 0x30 0x70 0x7f 0xff 0xff 0xff 0x00 0x00 0x00 0x00 0x01 0x00 0x00 0x00 0x00 0x00 0x3f 0x01 0xff 0x00 0x00 0x00 0x00 0x00 0x00 0x10 0x00 0x00 0x00 0x10 0x00 0x00 0x00 0x00 0x05 0xea 0x06 (List.replicate 3 0)))) := by
  have h := c3_unknown_player_type_amended 0x43 (List.replicate 19 0)
    0x06 0x02 0x00 0xd1 0x02 0x00 0x00 0x02 0x03 0x01 0x00 0x00 0x00 0x73 0x00 0x01 0x02 (List.replicate 14 0) 0x00 0x02 (List.replicate 32 0)
    0x04 0x04 0x00 0x04 0x00 0x00 0x05 [0x31, 0x2e, 0x32, 0x30] 0x00 0x00 0x00 0x01 0x00 0x00 0x6e 0x00 0x10 0x00 0x00 0x80 0x00 0x30 0x70 0x7f 0xff 0xff 0xff 0x00 0x00 0x00 0x00 0x01 0x00 0x00 0x00 0x00 0x00 0x3f 0x01 0xff 0x00 0x00 0x00 0x00 0x00 0x00 0x10 0x00 0x00 0x00 0x10 0x00 0x00 0x00 0x00 0x05 0xea 0x06
    (List.replicate 3 0) [] (by decide) (by decide) (by decide) (by decide)
    (by decide) (by decide) (by decide) (by decide)
  exact ⟨h.1, h.2.1 rfl⟩

/-! ## Claim C4: NewTrack is emitted only on a tuple change -/

theorem alGet_alInsert_self (k : Nat) (v : α) (l : List (Nat × α)) :
    alGet k (alInsert k v l) = some v := by
  induction l with
  | nil => simp [alGet, alInsert]
  | cons p rest ih =>
    obtain ⟨k2, v2⟩ := p
    by_cases h : k2 = k
    · simp [alGet, alInsert, h]
    · simp [alGet, alInsert, h, ih]

/-- A step of `handle_player_status_packet` that can emit a `NewTrack`
leaves the observed track recorded for the player. -/
theorem handle_state_after_emit {st : StatusState} {pkt : PlayerStatusPacket}
    {st2 : StatusState} {out : StatusStep}
    (h : handlePlayerStatusPacket st pkt = (st2, out))
    (hem : out.emits = true) :
    st2.currentTracks =
      alInsert pkt.device_num (trackOfStatus pkt) st.currentTracks := by
  simp only [handlePlayerStatusPacket] at h
  split at h
  · obtain ⟨rfl, rfl⟩ := Prod.mk.injEq .. ▸ h
    cases hem
  · split at h
    · obtain ⟨rfl, rfl⟩ := Prod.mk.injEq .. ▸ h
      cases hem
    · split at h
      · split at h
        · obtain ⟨rfl, rfl⟩ := Prod.mk.injEq .. ▸ h
          rfl
        · obtain ⟨rfl, rfl⟩ := Prod.mk.injEq .. ▸ h
          cases hem
      · obtain ⟨rfl, rfl⟩ := Prod.mk.injEq .. ▸ h
        rfl

/-- An emitting step requires the observed track to differ from the
recorded one. -/
theorem handle_emits_only_on_change (st : StatusState)
    (pkt : PlayerStatusPacket)
    (hem : ((handlePlayerStatusPacket st pkt).2).emits = true) :
    alGet pkt.device_num st.currentTracks ≠ some (trackOfStatus pkt) := by
  intro hc
  by_cases hp : (alGet pkt.device_num st.peers).isNone
  · simp [handlePlayerStatusPacket, hp, StatusStep.emits] at hem
  · simp [handlePlayerStatusPacket, hp, hc, StatusStep.emits] at hem

/-- While the observed tuple is already recorded for the player, a run of
the status task emits nothing. -/
theorem countNewTracks_zero_of_recorded (t : Track) :
    ∀ (evs : List StatusEvent) (st : StatusState),
    (∀ ev ∈ evs, ∀ pkt, ev = StatusEvent.statusPacket pkt → trackOfStatus pkt = t) →
    alGet t.player_device st.currentTracks = some t →
    countNewTracks st evs = 0 := by
  intro evs
  induction evs with
  | nil => intro st _ _; rfl
  | cons ev rest ih =>
    intro st hall hrec
    have halltail : ∀ ev ∈ rest, ∀ pkt,
        ev = StatusEvent.statusPacket pkt → trackOfStatus pkt = t :=
      fun e he => hall e (by simp [he])
    match ev with
    | .peerJoined p =>
      simp only [countNewTracks, statusStep, StatusStep.emits,
        Bool.false_eq_true, if_false, Nat.zero_add]
      exact ih _ halltail hrec
    | .peerLeft p =>
      simp only [countNewTracks, statusStep, StatusStep.emits,
        Bool.false_eq_true, if_false, Nat.zero_add]
      exact ih _ halltail hrec
    | .statusPacket pkt =>
      have htr : trackOfStatus pkt = t := hall _ (by simp) pkt rfl
      subst htr
      have hprev : alGet pkt.device_num st.currentTracks =
          some (trackOfStatus pkt) := hrec
      by_cases hp : (alGet pkt.device_num st.peers).isNone
      · simp only [countNewTracks, statusStep, handlePlayerStatusPacket,
          if_pos hp, StatusStep.emits, Bool.false_eq_true, if_false,
          Nat.zero_add]
        exact ih _ halltail hrec
      · simp only [countNewTracks, statusStep, handlePlayerStatusPacket,
          if_neg hp, if_pos hprev, StatusStep.emits, Bool.false_eq_true,
          if_false, Nat.zero_add]
        exact ih _ halltail (alGet_alInsert_self ..)

/-- A run of packets all carrying one identifying tuple emits at most one
`NewTrack`. -/
theorem countNewTracks_le_one (t : Track) :
    ∀ (evs : List StatusEvent) (st : StatusState),
    (∀ ev ∈ evs, ∀ pkt, ev = StatusEvent.statusPacket pkt → trackOfStatus pkt = t) →
    countNewTracks st evs ≤ 1 := by
  intro evs
  induction evs with
  | nil => intro st _; exact Nat.zero_le 1
  | cons ev rest ih =>
    intro st hall
    have halltail : ∀ ev ∈ rest, ∀ pkt,
        ev = StatusEvent.statusPacket pkt → trackOfStatus pkt = t :=
      fun e he => hall e (by simp [he])
    match ev with
    | .peerJoined p =>
      simp only [countNewTracks, statusStep, StatusStep.emits,
        Bool.false_eq_true, if_false, Nat.zero_add]
      exact ih _ halltail
    | .peerLeft p =>
      simp only [countNewTracks, statusStep, StatusStep.emits,
        Bool.false_eq_true, if_false, Nat.zero_add]
      exact ih _ halltail
    | .statusPacket pkt =>
      have htr : trackOfStatus pkt = t := hall _ (by simp) pkt rfl
      subst htr
      simp only [countNewTracks, statusStep]
      cases hh : handlePlayerStatusPacket st pkt with
      | mk st2 out =>
      cases out with
      | errUnknownTrackDevice => exact Nat.zero_le 1
      | droppedUnknownPlayer =>
        simp only [StatusStep.emits, Bool.false_eq_true, if_false,
          Nat.zero_add]
        exact ih _ halltail
      | noChange =>
        simp only [StatusStep.emits, Bool.false_eq_true, if_false,
          Nat.zero_add]
        exact ih _ halltail
      | sentNewTrack =>
        have hst2 := handle_state_after_emit hh rfl
        have hz := countNewTracks_zero_of_recorded (trackOfStatus pkt) rest
          st2 halltail (by rw [hst2]; exact alGet_alInsert_self ..)
        simp [StatusStep.emits, hz]
      | spawnedMetadataFetch =>
        have hst2 := handle_state_after_emit hh rfl
        have hz := countNewTracks_zero_of_recorded (trackOfStatus pkt) rest
          st2 halltail (by rw [hst2]; exact alGet_alInsert_self ..)
        simp [StatusStep.emits, hz]

/-- C4: a `NewTrack` emission (direct send or spawned metadata fetch)
happens only when the observed identifying tuple differs from the one
recorded for that player, and any run of packets carrying one identical
tuple emits at most one `NewTrack`, whatever peer joins and leaves are
interleaved. -/
theorem c4_new_track_only_on_change :
    (∀ (st : StatusState) (pkt : PlayerStatusPacket),
      ((handlePlayerStatusPacket st pkt).2).emits = true →
      alGet pkt.device_num st.currentTracks ≠ some (trackOfStatus pkt)) ∧
    (∀ (t : Track) (evs : List StatusEvent) (st : StatusState),
      (∀ ev ∈ evs, ∀ pkt,
        ev = StatusEvent.statusPacket pkt → trackOfStatus pkt = t) →
      countNewTracks st evs ≤ 1) :=
  ⟨handle_emits_only_on_change, countNewTracks_le_one⟩

def c4Peer : Peer :=
  { name := [0x43], device_num := 2, mac_addr := [0, 0, 0, 0, 0, 0],
    ip_addr := [192, 168, 1, 2], proto_ver := 3, last_seen := 0 }

def c4Pkt : PlayerStatusPacket :=
  { name := [0x43], unknown_10 := 6, device_num := 2, unknown_16 := 0,
    active := 0, track_device := 2, track_slot := 3, track_type := 1,
    rekordbox_id := 0, track_num := 1, d_l := 0, unknown_38 := [],
    d_n := 0, unknown_48 := [], usb_activity := 0, sd_activity := 0,
    u_l := 0, s_l := 0, link_available := 0, unknown_78 := 0,
    play_mode := 0, firmware_ver := [0x31], sync_n := 0, flags := 0,
    unknown_8b := 0, play_state := 0, pitch_1 := 0, m_v := 0, bpm := 0,
    unknown_94 := 0, pitch_2 := 0, p_3 := 0, m_m := 0, m_h := 0,
    beat := 0, cue := 0, bar_beat := 0, media_presence := 0, u_e := 0,
    s_e := 0, emergency_loop_active := 0, pitch_3 := 0, pitch_4 := 0,
    seq_num := 0, player_type := 5, unknown_cd := [], extra0 := none }

def c4State : StatusState := { peers := [(2, c4Peer)], currentTracks := [] }

/-- C4 witness: an emitting step on an empty track table had nothing
recorded, and two identical packets from a known player emit at most one
`NewTrack`. -/
theorem c4_new_track_only_on_change_witness :
    (alGet c4Pkt.device_num c4State.currentTracks ≠
      some (trackOfStatus c4Pkt)) ∧
    countNewTracks c4State
      [StatusEvent.statusPacket c4Pkt, StatusEvent.statusPacket c4Pkt] ≤ 1 := by
  constructor
  · exact c4_new_track_only_on_change.1 c4State c4Pkt (by decide)
  · refine c4_new_track_only_on_change.2 (trackOfStatus c4Pkt) _ c4State ?_
    intro ev hev pkt hevp
    rcases List.mem_cons.mp hev with h | h
    · subst h
      injection hevp with h2
      rw [← h2]
    · rcases List.mem_cons.mp h with h2 | h2
      · subst h2
        injection hevp with h3
        rw [← h3]
      · cases h2

/-! ## Claim C8: metadata_request panics without an NFS client -/

/-- C8: when the metadata task processes a lookup request for a device
with no established NFS client, `metadata_request` panics on the
`.unwrap()` of `nfs_clients.get_mut(&request.device)`, and the wrapper
therefore never delivers a result on the request's one-shot reply
channel. -/
theorem c8_metadata_request_panics_without_client (oracle : NfsOracle)
    (st : MetadataTaskState) (req : MetadataRequest)
    (h : alGet req.device st.nfsClients = none) :
    metadataRequest oracle st req = .panics ∧
    metadataRequestWrapper oracle st req = .panics := by
  constructor <;> simp [metadataRequest, metadataRequestWrapper, h]

def c8Oracle : NfsOracle :=
  { getFile := fun _ => .error (), parseDatabase := fun _ => .error () }

/-- C8 witness: a request against a task state with no clients panics. -/
theorem c8_metadata_request_panics_without_client_witness :
    metadataRequestWrapper c8Oracle { nfsClients := [], databases := [] }
      { device := 2, slot := 3, rekordbox_id := 0x73 } = .panics :=
  (c8_metadata_request_panics_without_client c8Oracle
    { nfsClients := [], databases := [] }
    { device := 2, slot := 3, rekordbox_id := 0x73 } rfl).2

end Prolink
